import Mathlib

/-!
Verification development for the ytask backend scheduler
(src/backend/src/services/taskScheduler.ts and its callers).

The scheduler manipulates JavaScript Date values in a fixed local timezone.
A JS Date is modelled here in civil form: year, 0-based month, 1-based day
of month, and the time of day in milliseconds.  All Date mutators used by
the source (setHours, setDate, setMonth, setFullYear, construction from
year/month/day, and construction from getTime() + delta) are embedded as
total functions that renormalise day-of-month overflow exactly the way the
ECMAScript calendar does (day overflow rolls into following months, month
overflow rolls into following years).  Comparison of two (normalised) civil
date-times is lexicographic, which agrees with the comparison of the
underlying epoch timestamps that the JS code performs.
-/

namespace YTask

/-- One day in milliseconds. -/
def DAY_MS : Nat := 86400000

/-- Gregorian leap-year test (as used by the ECMAScript calendar). -/
def isLeapYear (y : Nat) : Bool :=
  (y % 4 == 0 && y % 100 != 0) || (y % 400 == 0)

/-- Number of days of 0-based month m in year y. -/
def daysInMonth (y m : Nat) : Nat :=
  match m with
  | 0 => 31
  | 1 => if isLeapYear y then 29 else 28
  | 2 => 31
  | 3 => 30
  | 4 => 31
  | 5 => 30
  | 6 => 31
  | 7 => 31
  | 8 => 30
  | 9 => 31
  | 10 => 30
  | _ => 31

theorem daysInMonth_pos (y m : Nat) : 0 < daysInMonth y m := by
  unfold daysInMonth
  split <;> first | omega | split <;> omega

theorem daysInMonth_le_31 (y m : Nat) : daysInMonth y m ≤ 31 := by
  unfold daysInMonth
  split <;> first | omega | split <;> omega

/-- Structural worker for normDay: the first argument is fuel, always
    called with at least d, which is enough since every unfolding removes
    at least one day. -/
def normDayAux : Nat → Nat → Nat → Nat → Nat × Nat × Nat
  | 0, y, m, d => (y, m, d)
  | fuel + 1, y, m, d =>
    if daysInMonth y m < d then
      if 11 ≤ m then normDayAux fuel (y + 1) 0 (d - daysInMonth y m)
      else normDayAux fuel y (m + 1) (d - daysInMonth y m)
    else (y, m, d)

/-- Normalise an overflowing 1-based day of month into (year, month, day),
    rolling forward through following months as the ECMAScript calendar
    does for Date setters. -/
def normDay (y m d : Nat) : Nat × Nat × Nat :=
  normDayAux d y m d

theorem normDayAux_eq (f1 f2 y m d : Nat) (h1 : d ≤ f1) (h2 : d ≤ f2) :
    normDayAux f1 y m d = normDayAux f2 y m d := by
  induction d using Nat.strong_induction_on generalizing f1 f2 y m with
  | _ d ih =>
    match f1, f2 with
    | 0, 0 => rfl
    | 0, f2 + 1 =>
      have hd : d = 0 := by omega
      subst hd
      show (y, m, 0) = normDayAux (f2 + 1) y m 0
      unfold normDayAux
      rw [if_neg (by omega)]
    | f1 + 1, 0 =>
      have hd : d = 0 := by omega
      subst hd
      show normDayAux (f1 + 1) y m 0 = (y, m, 0)
      unfold normDayAux
      rw [if_neg (by omega)]
    | f1 + 1, f2 + 1 =>
      show normDayAux (f1 + 1) y m d = normDayAux (f2 + 1) y m d
      unfold normDayAux
      by_cases hlt : daysInMonth y m < d
      · rw [if_pos hlt, if_pos hlt]
        have hpos := daysInMonth_pos y m
        by_cases hm : 11 ≤ m
        · rw [if_pos hm, if_pos hm]
          exact ih _ (by omega) _ _ _ _ (by omega) (by omega)
        · rw [if_neg hm, if_neg hm]
          exact ih _ (by omega) _ _ _ _ (by omega) (by omega)
      · rw [if_neg hlt, if_neg hlt]

/-- A JavaScript Date value in civil (local-time) form.
    month is 0-based as in JS getMonth; day is 1-based; tod is the time of
    day in milliseconds. -/
structure JsDate where
  year : Nat
  month : Nat
  day : Nat
  tod : Nat
deriving Repr, DecidableEq

/-- A normalised, calendar-valid JsDate (what an actual JS Date holds). -/
def JsDate.Valid (a : JsDate) : Prop :=
  1 ≤ a.year ∧ a.month ≤ 11 ∧ 1 ≤ a.day ∧ a.day ≤ daysInMonth a.year a.month ∧
    a.tod < DAY_MS

instance : DecidablePred JsDate.Valid := by
  intro a
  unfold JsDate.Valid
  infer_instance

/-- Rebuild a JsDate from a possibly overflowing day count and a time of
    day (helper shared by all embedded Date mutators). -/
def onNorm (y m d tod : Nat) : JsDate :=
  match normDay y m d with
  | (y2, m2, d2) => ⟨y2, m2, d2, tod⟩

/-- Embeds JS setHours(h, mi, 0, 0): the time of day is replaced; hours
    beyond 23 carry into following days exactly as the epoch arithmetic
    of the ECMAScript spec does. -/
def setHoursJs (dt : JsDate) (h mi : Nat) : JsDate :=
  let tod := h * 3600000 + mi * 60000
  onNorm dt.year dt.month (dt.day + tod / DAY_MS) (tod % DAY_MS)

/-- Embeds JS setDate(getDate() + k): advance by k calendar days. -/
def addDays (dt : JsDate) (k : Nat) : JsDate :=
  onNorm dt.year dt.month (dt.day + k) dt.tod

/-- Embeds JS setDate(d) for a positive day argument. -/
def setDayOfMonth (dt : JsDate) (d : Nat) : JsDate :=
  onNorm dt.year dt.month d dt.tod

/-- Embeds JS setMonth(m) (0-based, may exceed 11; the year absorbs the
    overflow, and a day of month too large for the target month rolls
    forward as the ECMAScript calendar does). -/
def setMonthJs (dt : JsDate) (m : Nat) : JsDate :=
  onNorm (dt.year + m / 12) (m % 12) dt.day dt.tod

/-- Embeds JS setFullYear(y). -/
def setFullYearJs (dt : JsDate) (y : Nat) : JsDate :=
  onNorm y dt.month dt.day dt.tod

/-- Embeds the JS constructor new Date(year, month, day) (local midnight;
    the 0-based month may exceed 11). -/
def mkDateJs (y m d : Nat) : JsDate :=
  onNorm (y + m / 12) (m % 12) d 0

/-- Embeds new Date(dt.getTime() + ms): millisecond addition on the epoch
    timestamp, reflected on the civil form by carrying whole days. -/
def addMs (dt : JsDate) (ms : Nat) : JsDate :=
  onNorm dt.year dt.month (dt.day + (dt.tod + ms) / DAY_MS) ((dt.tod + ms) % DAY_MS)

/-- Embeds the JS comparison a <= b on Dates (epoch order; on normalised
    civil forms this is exactly the lexicographic order). -/
def civilLe (a b : JsDate) : Bool :=
  a.year < b.year ||
    (a.year == b.year &&
      (a.month < b.month ||
        (a.month == b.month &&
          (a.day < b.day || (a.day == b.day && a.tod ≤ b.tod)))))

/-- Embeds the JS comparison a < b on Dates. -/
def civilLt (a b : JsDate) : Bool :=
  a.year < b.year ||
    (a.year == b.year &&
      (a.month < b.month ||
        (a.month == b.month &&
          (a.day < b.day || (a.day == b.day && a.tod < b.tod)))))

/-- Sakamoto weekday table for 0-based months. -/
def dowTable (m : Nat) : Nat :=
  match m with
  | 0 => 0 | 1 => 3 | 2 => 2 | 3 => 5 | 4 => 0 | 5 => 3
  | 6 => 5 | 7 => 1 | 8 => 4 | 9 => 6 | 10 => 2 | _ => 4

/-- Embeds JS getDay(): day of the week, Sunday = 0 (Sakamoto congruence
    on the civil date). -/
def getDayJs (dt : JsDate) : Nat :=
  let y := if dt.month < 2 then dt.year - 1 else dt.year
  (y + y / 4 - y / 100 + y / 400 + dowTable dt.month + dt.day) % 7

/-- Embeds Math.min(...l) on a list of numbers; an empty list gives none,
    standing for the JS value +Infinity (which the week branch of the
    scheduler turns into an Invalid Date whose toISOString throws and is
    caught, yielding null). -/
def listMin : List Nat → Option Nat
  | [] => none
  | [a] => some a
  | a :: rest =>
    match listMin rest with
    | some b => some (Nat.min a b)
    | none => some a

end YTask

namespace YTask

/-- Trigger kinds of the scheduler (trigger_type column / task.triggerType). -/
inductive TriggerType
  | cron | interval | date | visual | lunar | countdown | conditional
deriving Repr, DecidableEq

/-- Visual trigger sub-kinds (triggerConfig.visualType). -/
inductive VisualType
  | once | minute | hour | day | week | month
deriving Repr, DecidableEq

/-- Conditional trigger sub-kinds (triggerConfig.conditionType); kinds other
    than system_startup and system_resume are collapsed into otherCondition,
    which the scheduler leaves unresolved. -/
inductive CondType
  | system_startup | system_resume | otherCondition
deriving Repr, DecidableEq

/-- Task kinds (task.type); kinds other than http, command, script hit the
    default branch of executeTaskLogic. -/
inductive TaskKind
  | http | command | script | unknown
deriving Repr, DecidableEq

/-- The trigger_config JSON object.  Numeric fields use 0 for the JS falsy
    values undefined/0 (the source only ever tests them for truthiness or
    uses them with a || default); optional object/string fields use none
    for undefined.  visualTime holds the parsed hours/minutes of the
    source's "HH:MM" string. -/
structure TriggerConfig where
  cron : Option String
  interval : Nat
  date : Option JsDate
  visualType : Option VisualType
  visualTime : Option (Nat × Nat)
  visualValue : Nat
  visualDays : List Nat
  visualDate : Nat
  lunarYear : Nat
  lunarMonth : Nat
  lunarDay : Nat
  lunarRepeat : Bool
  countdownStartTime : Option JsDate
  countdownHours : Nat
  countdownMinutes : Nat
  countdownSeconds : Nat
  conditionType : Option CondType
  conditionDelay : Nat
deriving Repr, DecidableEq

/-- A TriggerConfig with every field absent/falsy. -/
def emptyTriggerConfig : TriggerConfig :=
  ⟨none, 0, none, none, none, 0, [], 0, 0, 0, 0, false, none, 0, 0, 0, none, 0⟩

/-- The kind-specific config object of a task (task.config); only the
    fields executeTaskLogic reads are represented.  A field whose runtime
    value is not a string is modelled as none (the source's typeof checks
    treat it the same as missing). -/
structure TaskConfig where
  url : Option String
  command : Option String
  script : Option String
  language : Option String
deriving Repr, DecidableEq

/-- The Task record as the scheduler consumes it. -/
structure Task where
  id : String
  name : String
  type : TaskKind
  config : TaskConfig
  triggerType : TriggerType
  triggerConfig : TriggerConfig
  maxRetries : Nat
  retryInterval : Nat
  timeout : Nat
deriving Repr, DecidableEq

/-- Embeds the JS idiom (x || 1) on a numeric config field. -/
def orOne (n : Nat) : Nat := if n == 0 then 1 else n

/-- Embedding of TaskScheduler.calculateVisualScheduleTime
    (src/backend/src/services/taskScheduler.ts, lines 364-454), with the
    ambient new Date() passed in as now.  The week branch with no
    configured weekday strictly after the current weekday produces
    Math.min() = Infinity in JS, hence an Invalid Date whose toISOString
    throws; the catch handler returns null, modelled by none. -/
def calculateVisualScheduleTime (task : Task) (now : JsDate) : Option JsDate :=
  let config := task.triggerConfig
  match config.visualType with
  | none => none
  | some vt =>
    match vt with
    | VisualType.once =>
      match config.visualTime with
      | some (hours, minutes) =>
        let targetTime := setHoursJs now hours minutes
        let targetTime :=
          if civilLe targetTime now then addDays targetTime 1 else targetTime
        some targetTime
      | none => none
    | VisualType.minute =>
      let minuteInterval := orOne config.visualValue * 60 * 1000
      some (addMs now minuteInterval)
    | VisualType.hour =>
      let hourInterval := orOne config.visualValue * 60 * 60 * 1000
      some (addMs now hourInterval)
    | VisualType.day =>
      match config.visualTime with
      | some (hours, minutes) =>
        let days := orOne config.visualValue
        let targetTime := setHoursJs (addDays now days) hours minutes
        let targetTime :=
          if civilLe targetTime now then addDays targetTime days else targetTime
        some targetTime
      | none => none
    | VisualType.week =>
      match config.visualTime with
      | some (hours, minutes) =>
        if config.visualDays ≠ [] then
          let currentDay := getDayJs now
          match listMin (config.visualDays.filter (fun d => currentDay < d)) with
          | none => none
          | some nextDay =>
            let targetTime :=
              if currentDay < nextDay then addDays now (nextDay - currentDay)
              else addDays now (7 - currentDay + nextDay)
            some (setHoursJs targetTime hours minutes)
        else none
      | none => none
    | VisualType.month =>
      match config.visualTime with
      | some (hours, minutes) =>
        if config.visualDate ≠ 0 then
          let targetTime := setMonthJs now (now.month + 1)
          let targetTime := setDayOfMonth targetTime config.visualDate
          let targetTime := setHoursJs targetTime hours minutes
          let targetTime :=
            if civilLe targetTime now then setMonthJs targetTime (targetTime.month + 1)
            else targetTime
          some targetTime
        else none
      | none => none

/-- Embedding of TaskScheduler.calculateLunarScheduleTime (lines 459-480). -/
def calculateLunarScheduleTime (task : Task) (now : JsDate) : Option JsDate :=
  let config := task.triggerConfig
  if config.lunarYear == 0 || config.lunarMonth == 0 || config.lunarDay == 0 then none
  else
    let targetDate := mkDateJs now.year (config.lunarMonth - 1) config.lunarDay
    let targetDate :=
      if civilLe targetDate now then setFullYearJs targetDate (targetDate.year + 1)
      else targetDate
    some targetDate

/-- Embedding of TaskScheduler.calculateConditionalScheduleTime
    (lines 485-504); conditionDelay || 0 is the identity on the Nat
    model of the delay. -/
def calculateConditionalScheduleTime (task : Task) (now : JsDate) : Option JsDate :=
  let config := task.triggerConfig
  match config.conditionType with
  | some CondType.system_startup => some (addMs now config.conditionDelay)
  | some CondType.system_resume => some (addMs now config.conditionDelay)
  | _ => none

/-- Embedding of TaskScheduler.calculateNextExecutionTime (lines 184-214).
    The cron-parser library is not part of this repository; following the
    spec it is supplied as an oracle cronNext mapping an expression and
    now to the next occurrence (none when parsing fails, which the source
    catches and turns into null). -/
def calculateNextExecutionTime (cronNext : String → JsDate → Option JsDate)
    (task : Task) (now : JsDate) : Option JsDate :=
  match task.triggerType with
  | TriggerType.cron =>
    match task.triggerConfig.cron with
    | some expr => cronNext expr now
    | none => none
  | TriggerType.interval =>
    if task.triggerConfig.interval ≠ 0 then some (addMs now task.triggerConfig.interval)
    else none
  | TriggerType.date =>
    match task.triggerConfig.date with
    | some targetTime => if civilLt now targetTime then some targetTime else none
    | none => none
  | _ => none

/-- The countdown target instant computed inline by scheduleTask
    (lines 115-130): start time plus hours/minutes/seconds. -/
def countdownTarget (config : TriggerConfig) (startTime : JsDate) : JsDate :=
  let totalSeconds :=
    config.countdownHours * 3600 + config.countdownMinutes * 60 + config.countdownSeconds
  addMs startTime (totalSeconds * 1000)

/-- The next-fire-time computation of the scheduler per trigger kind:
    cron/interval/date as in calculateNextExecutionTime, visual, lunar and
    conditional via the dedicated calculators, countdown as computed
    inline by scheduleTask (scheduled only when strictly in the future). -/
def nextFireTime (cronNext : String → JsDate → Option JsDate)
    (task : Task) (now : JsDate) : Option JsDate :=
  match task.triggerType with
  | TriggerType.cron => calculateNextExecutionTime cronNext task now
  | TriggerType.interval => calculateNextExecutionTime cronNext task now
  | TriggerType.date => calculateNextExecutionTime cronNext task now
  | TriggerType.visual => calculateVisualScheduleTime task now
  | TriggerType.lunar => calculateLunarScheduleTime task now
  | TriggerType.countdown =>
    match task.triggerConfig.countdownStartTime with
    | some startTime =>
      let targetTime := countdownTarget task.triggerConfig startTime
      if civilLt now targetTime then some targetTime else none
    | none => none
  | TriggerType.conditional => calculateConditionalScheduleTime task now

end YTask


namespace YTask

/-- Lexicographic strict order on (year, month, day) triples. -/
def tripleLt (a b : Nat × Nat × Nat) : Prop :=
  a.1 < b.1 ∨ (a.1 = b.1 ∧ (a.2.1 < b.2.1 ∨ (a.2.1 = b.2.1 ∧ a.2.2 < b.2.2)))

/-- Lexicographic order on (year, month, day) triples. -/
def tripleLe (a b : Nat × Nat × Nat) : Prop :=
  a.1 < b.1 ∨ (a.1 = b.1 ∧ (a.2.1 < b.2.1 ∨ (a.2.1 = b.2.1 ∧ a.2.2 ≤ b.2.2)))

theorem tripleLt_of_lt_of_le {a b c : Nat × Nat × Nat}
    (h1 : tripleLt a b) (h2 : tripleLe b c) : tripleLt a c := by
  obtain ⟨a1, a2, a3⟩ := a
  obtain ⟨b1, b2, b3⟩ := b
  obtain ⟨c1, c2, c3⟩ := c
  unfold tripleLt tripleLe at *
  dsimp only at *
  omega

theorem tripleLe_of_le_of_le {a b c : Nat × Nat × Nat}
    (h1 : tripleLe a b) (h2 : tripleLe b c) : tripleLe a c := by
  obtain ⟨a1, a2, a3⟩ := a
  obtain ⟨b1, b2, b3⟩ := b
  obtain ⟨c1, c2, c3⟩ := c
  unfold tripleLe at *
  dsimp only at *
  omega

theorem normDay_eq_self (y m d : Nat) (h : d ≤ daysInMonth y m) :
    normDay y m d = (y, m, d) := by
  unfold normDay
  cases d with
  | zero => rfl
  | succ d =>
    unfold normDayAux
    rw [if_neg (by omega)]

theorem normDay_rec (y m d : Nat) (h : daysInMonth y m < d) :
    normDay y m d =
      if 11 ≤ m then normDay (y + 1) 0 (d - daysInMonth y m)
      else normDay y (m + 1) (d - daysInMonth y m) := by
  have hpos := daysInMonth_pos y m
  obtain ⟨d0, rfl⟩ : ∃ d0, d = d0 + 1 := ⟨d - 1, by omega⟩
  unfold normDay
  have hstep : normDayAux (d0 + 1) y m (d0 + 1) =
      if daysInMonth y m < d0 + 1 then
        if 11 ≤ m then normDayAux d0 (y + 1) 0 (d0 + 1 - daysInMonth y m)
        else normDayAux d0 y (m + 1) (d0 + 1 - daysInMonth y m)
      else (y, m, d0 + 1) := rfl
  rw [hstep, if_pos h]
  by_cases hm : 11 ≤ m
  · rw [if_pos hm, if_pos hm]
    exact normDayAux_eq d0 (d0 + 1 - daysInMonth y m) (y + 1) 0
      (d0 + 1 - daysInMonth y m) (by omega) (by omega)
  · rw [if_neg hm, if_neg hm]
    exact normDayAux_eq d0 (d0 + 1 - daysInMonth y m) y (m + 1)
      (d0 + 1 - daysInMonth y m) (by omega) (by omega)

theorem normDay_start_le (y m d : Nat) :
    1 ≤ d → tripleLe (y, m, 1) (normDay y m d) := by
  induction d using Nat.strong_induction_on generalizing y m with
  | _ d ih =>
    intro hd
    have hpos := daysInMonth_pos y m
    by_cases hle : d ≤ daysInMonth y m
    · rw [normDay_eq_self y m d hle]
      unfold tripleLe
      dsimp only
      omega
    · rw [normDay_rec y m d (by omega)]
      by_cases hm : 11 ≤ m
      · rw [if_pos hm]
        refine tripleLe_of_le_of_le ?_
          (ih (d - daysInMonth y m) (by omega) (y + 1) 0 (by omega))
        unfold tripleLe
        dsimp only
        omega
      · rw [if_neg hm]
        refine tripleLe_of_le_of_le ?_
          (ih (d - daysInMonth y m) (by omega) y (m + 1) (by omega))
        unfold tripleLe
        dsimp only
        omega

theorem normDay_gt (y m d d0 : Nat) (h : d0 < d) :
    tripleLt (y, m, d0) (normDay y m d) := by
  by_cases hle : d ≤ daysInMonth y m
  · rw [normDay_eq_self y m d hle]
    unfold tripleLt
    dsimp only
    omega
  · have hlt : daysInMonth y m < d := by omega
    rw [normDay_rec y m d hlt]
    by_cases hm : 11 ≤ m
    · rw [if_pos hm]
      refine tripleLt_of_lt_of_le ?_
        (normDay_start_le _ _ _ (by have := daysInMonth_pos y m; omega))
      unfold tripleLt
      dsimp only
      omega
    · rw [if_neg hm]
      refine tripleLt_of_lt_of_le ?_
        (normDay_start_le _ _ _ (by have := daysInMonth_pos y m; omega))
      unfold tripleLt
      dsimp only
      omega

theorem normDay_ge (y m d d0 : Nat) (h : d0 ≤ d) :
    tripleLe (y, m, d0) (normDay y m d) := by
  by_cases hlt : d0 < d
  · have h2 := normDay_gt y m d d0 hlt
    rcases e : normDay y m d with ⟨y3, m3, d3⟩
    rw [e] at h2
    unfold tripleLt at h2
    unfold tripleLe
    dsimp only at *
    omega
  · have he : d0 = d := by omega
    subst he
    by_cases hle : d0 ≤ daysInMonth y m
    · rw [normDay_eq_self y m d0 hle]
      unfold tripleLe
      dsimp only
      omega
    · have h2 := normDay_gt y m d0 (d0 - 1) (by have := daysInMonth_pos y m; omega)
      rcases e : normDay y m d0 with ⟨y3, m3, d3⟩
      rw [e] at h2
      unfold tripleLt at h2
      unfold tripleLe
      dsimp only at *
      omega

theorem normDay_valid (y m d : Nat) (hm : m ≤ 11) (hd : 1 ≤ d) :
    1 ≤ (normDay y m d).2.2 ∧
      (normDay y m d).2.2 ≤ daysInMonth (normDay y m d).1 (normDay y m d).2.1 ∧
      (normDay y m d).2.1 ≤ 11 ∧ y ≤ (normDay y m d).1 := by
  induction d using Nat.strong_induction_on generalizing y m with
  | _ d ih =>
    have hpos := daysInMonth_pos y m
    by_cases hle : d ≤ daysInMonth y m
    · rw [normDay_eq_self y m d hle]
      dsimp only
      exact ⟨hd, hle, hm, Nat.le_refl y⟩
    · rw [normDay_rec y m d (by omega)]
      by_cases hmge : 11 ≤ m
      · rw [if_pos hmge]
        have h2 := ih (d - daysInMonth y m) (by omega) (y + 1) 0 (by omega) (by omega)
        omega
      · rw [if_neg hmge]
        have h2 := ih (d - daysInMonth y m) (by omega) y (m + 1) (by omega) (by omega)
        omega

end YTask

namespace YTask

theorem civilLt_iff (a b : JsDate) :
    civilLt a b = true ↔
      (a.year < b.year ∨ (a.year = b.year ∧ (a.month < b.month ∨
        (a.month = b.month ∧ (a.day < b.day ∨ (a.day = b.day ∧ a.tod < b.tod)))))) := by
  unfold civilLt
  simp only [Bool.or_eq_true, Bool.and_eq_true, decide_eq_true_eq, beq_iff_eq]

theorem civilLe_iff (a b : JsDate) :
    civilLe a b = true ↔
      (a.year < b.year ∨ (a.year = b.year ∧ (a.month < b.month ∨
        (a.month = b.month ∧ (a.day < b.day ∨ (a.day = b.day ∧ a.tod ≤ b.tod)))))) := by
  unfold civilLe
  simp only [Bool.or_eq_true, Bool.and_eq_true, decide_eq_true_eq, beq_iff_eq]

/-- A date strictly below another in (year, month, day) is strictly below
    it as a date-time, whatever the times of day are. -/
theorem civilLt_onNorm_of_day_lt (y m d tod d2 tod2 : Nat) (h : d < d2) :
    civilLt ⟨y, m, d, tod⟩ (onNorm y m d2 tod2) = true := by
  have hgt := normDay_gt y m d2 d h
  unfold onNorm
  rcases e : normDay y m d2 with ⟨y3, m3, d3⟩
  rw [e] at hgt
  unfold tripleLt at hgt
  rw [civilLt_iff]
  dsimp only at *
  omega

theorem civilLt_onNorm_same (y m d tod tod2 : Nat) (hd : d ≤ daysInMonth y m)
    (h : tod < tod2) : civilLt ⟨y, m, d, tod⟩ (onNorm y m d tod2) = true := by
  unfold onNorm
  rw [normDay_eq_self y m d hd, civilLt_iff]
  dsimp only
  omega

theorem civilLe_onNorm_same (y m d tod tod2 : Nat) (hd : d ≤ daysInMonth y m)
    (h : tod ≤ tod2) : civilLe ⟨y, m, d, tod⟩ (onNorm y m d tod2) = true := by
  unfold onNorm
  rw [normDay_eq_self y m d hd, civilLe_iff]
  dsimp only
  omega

/-- Strict lexicographic order on the (year, month) projection. -/
def ymLt (a b : JsDate) : Prop :=
  a.year < b.year ∨ (a.year = b.year ∧ a.month < b.month)

/-- Lexicographic order on the (year, month) projection. -/
def ymLe (a b : JsDate) : Prop :=
  a.year < b.year ∨ (a.year = b.year ∧ a.month ≤ b.month)

theorem civilLt_of_ymLt {a b : JsDate} (h : ymLt a b) : civilLt a b = true := by
  rw [civilLt_iff]
  unfold ymLt at h
  omega

theorem ymLt_of_lt_of_le {a b c : JsDate} (h1 : ymLt a b) (h2 : ymLe b c) :
    ymLt a c := by
  unfold ymLt ymLe at *
  omega

theorem normDay_ym_le (y m d : Nat) :
    y < (normDay y m d).1 ∨ ((normDay y m d).1 = y ∧ m ≤ (normDay y m d).2.1) := by
  have h := normDay_ge y m d 0 (Nat.zero_le d)
  rcases e : normDay y m d with ⟨y3, m3, d3⟩
  rw [e] at h
  unfold tripleLe at h
  dsimp only at *
  omega

theorem onNorm_ym_le (y m d tod : Nat) (a : JsDate) (hy : a.year = y)
    (hm : a.month = m) : ymLe a (onNorm y m d tod) := by
  have h := normDay_ym_le y m d
  unfold onNorm
  rcases e : normDay y m d with ⟨y3, m3, d3⟩
  rw [e] at h
  unfold ymLe
  dsimp only at *
  omega

theorem setMonthJs_ym_gt (a : JsDate) (hm : a.month ≤ 11) :
    ymLt a (setMonthJs a (a.month + 1)) := by
  unfold setMonthJs
  have h := normDay_ym_le (a.year + (a.month + 1) / 12) ((a.month + 1) % 12) a.day
  unfold onNorm
  rcases e : normDay (a.year + (a.month + 1) / 12) ((a.month + 1) % 12) a.day
    with ⟨y3, m3, d3⟩
  rw [e] at h
  unfold ymLt
  dsimp only at *
  omega

theorem setDayOfMonth_ym_le (a : JsDate) (d : Nat) : ymLe a (setDayOfMonth a d) := by
  unfold setDayOfMonth
  exact onNorm_ym_le _ _ _ _ a rfl rfl

theorem setHoursJs_ym_le (a : JsDate) (h mi : Nat) : ymLe a (setHoursJs a h mi) := by
  unfold setHoursJs
  exact onNorm_ym_le _ _ _ _ a rfl rfl

theorem addDays_ym_le (a : JsDate) (k : Nat) : ymLe a (addDays a k) := by
  unfold addDays
  exact onNorm_ym_le _ _ _ _ a rfl rfl

end YTask


namespace YTask

theorem DAY_MS_pos : 0 < DAY_MS := by
  unfold DAY_MS
  omega

/-- The civil-date projection of a date-time. -/
def dateOf (a : JsDate) : Nat × Nat × Nat := (a.year, a.month, a.day)

theorem civilLt_of_dateLt {a b : JsDate} (h : tripleLt (dateOf a) (dateOf b)) :
    civilLt a b = true := by
  rw [civilLt_iff]
  unfold tripleLt dateOf at h
  dsimp only at h
  omega

theorem civilLe_eq_false_iff (a b : JsDate) :
    civilLe a b = false ↔ civilLt b a = true := by
  rw [Bool.eq_false_iff, Ne, civilLe_iff, civilLt_iff]
  omega

theorem civilLt_eq_false_iff (a b : JsDate) :
    civilLt a b = false ↔ civilLe b a = true := by
  rw [Bool.eq_false_iff, Ne, civilLt_iff, civilLe_iff]
  omega

theorem onNorm_date_gt (y m d tod : Nat) (d2 tod2 : Nat) (h : d < d2) :
    tripleLt (y, m, d) (dateOf (onNorm y m d2 tod2)) := by
  have hgt := normDay_gt y m d2 d h
  unfold onNorm dateOf
  rcases e : normDay y m d2 with ⟨y3, m3, d3⟩
  rw [e] at hgt
  exact hgt

theorem onNorm_date_ge (y m d0 : Nat) (d2 tod2 : Nat) (h : d0 ≤ d2) :
    tripleLe (y, m, d0) (dateOf (onNorm y m d2 tod2)) := by
  have hge := normDay_ge y m d2 d0 h
  unfold onNorm dateOf
  rcases e : normDay y m d2 with ⟨y3, m3, d3⟩
  rw [e] at hge
  exact hge

theorem setHoursJs_date_ge (a : JsDate) (h mi : Nat) :
    tripleLe (dateOf a) (dateOf (setHoursJs a h mi)) := by
  unfold setHoursJs dateOf
  exact onNorm_date_ge a.year a.month a.day
    (a.day + (h * 3600000 + mi * 60000) / DAY_MS)
    ((h * 3600000 + mi * 60000) % DAY_MS) (Nat.le_add_right _ _)

theorem addDays_date_gt (a : JsDate) (k : Nat) (hk : 1 ≤ k) :
    tripleLt (dateOf a) (dateOf (addDays a k)) := by
  unfold addDays dateOf
  exact onNorm_date_gt a.year a.month a.day a.tod (a.day + k) a.tod (by omega)

theorem onNorm_year_ge (y m d tod : Nat) : y ≤ (onNorm y m d tod).year := by
  have h := normDay_ym_le y m d
  unfold onNorm
  rcases e : normDay y m d with ⟨y3, m3, d3⟩
  rw [e] at h
  dsimp only at *
  omega

theorem civilLt_of_year_lt {a b : JsDate} (h : a.year < b.year) :
    civilLt a b = true := by
  rw [civilLt_iff]
  omega

/-- Adding at least one millisecond to a valid date-time moves it strictly
    forward. -/
theorem civilLt_addMs (a : JsDate) (ms : Nat) (hv : a.Valid) (h : 1 ≤ ms) :
    civilLt a (addMs a ms) = true := by
  obtain ⟨y, m, d, tod⟩ := a
  obtain ⟨hy, hm, hd1, hd2, ht⟩ := hv
  dsimp only at *
  unfold addMs
  dsimp only
  unfold DAY_MS at *
  rcases Nat.eq_zero_or_pos ((tod + ms) / 86400000) with h0 | h0
  · rw [h0]
    simp only [Nat.add_zero]
    exact civilLt_onNorm_same y m d tod _ hd2 (by omega)
  · exact civilLt_onNorm_of_day_lt y m d tod _ _ (by omega)

/-- Adding a (possibly zero) number of milliseconds never moves a valid
    date-time backwards. -/
theorem civilLe_addMs (a : JsDate) (ms : Nat) (hv : a.Valid) :
    civilLe a (addMs a ms) = true := by
  obtain ⟨y, m, d, tod⟩ := a
  obtain ⟨hy, hm, hd1, hd2, ht⟩ := hv
  dsimp only at *
  unfold addMs
  dsimp only
  unfold DAY_MS at *
  rcases Nat.eq_zero_or_pos ((tod + ms) / 86400000) with h0 | h0
  · rw [h0]
    simp only [Nat.add_zero]
    exact civilLe_onNorm_same y m d tod _ hd2 (by omega)
  · have h2 := civilLt_onNorm_of_day_lt y m d tod (d + (tod + ms) / 86400000)
      ((tod + ms) % 86400000) (by omega)
    rw [civilLt_iff] at h2
    rw [civilLe_iff]
    omega

/-- Adding zero milliseconds to a valid date-time is the identity
    (new Date(d.getTime() + 0) is d). -/
theorem addMs_zero (a : JsDate) (hv : a.Valid) : addMs a 0 = a := by
  obtain ⟨y, m, d, tod⟩ := a
  obtain ⟨hy, hm, hd1, hd2, ht⟩ := hv
  dsimp only at *
  unfold addMs onNorm
  dsimp only
  have h0 : (tod + 0) / DAY_MS = 0 := Nat.div_eq_of_lt (by omega)
  have h1 : (tod + 0) % DAY_MS = tod := by
    rw [Nat.mod_eq_of_lt (by omega)]
    omega
  rw [h0, h1, normDay_eq_self y m (d + 0) (by omega)]
  simp

end YTask


namespace YTask

theorem orOne_pos (n : Nat) : 1 ≤ orOne n := by
  unfold orOne
  by_cases h : n = 0
  · simp [h]
  · simp [h]
    omega

theorem getDayJs_lt (dt : JsDate) : getDayJs dt < 7 := by
  unfold getDayJs
  exact Nat.mod_lt _ (by omega)

theorem visual_once_eq (task : Task) (now : JsDate) (hh mm : Nat)
    (hvt : task.triggerConfig.visualType = some VisualType.once)
    (hvtime : task.triggerConfig.visualTime = some (hh, mm)) :
    calculateVisualScheduleTime task now =
      some (if civilLe (setHoursJs now hh mm) now
            then addDays (setHoursJs now hh mm) 1
            else setHoursJs now hh mm) := by
  unfold calculateVisualScheduleTime
  dsimp only
  rw [hvt]
  dsimp only
  rw [hvtime]

theorem visual_minute_eq (task : Task) (now : JsDate)
    (hvt : task.triggerConfig.visualType = some VisualType.minute) :
    calculateVisualScheduleTime task now =
      some (addMs now (orOne task.triggerConfig.visualValue * 60 * 1000)) := by
  unfold calculateVisualScheduleTime
  dsimp only
  rw [hvt]

theorem visual_hour_eq (task : Task) (now : JsDate)
    (hvt : task.triggerConfig.visualType = some VisualType.hour) :
    calculateVisualScheduleTime task now =
      some (addMs now (orOne task.triggerConfig.visualValue * 60 * 60 * 1000)) := by
  unfold calculateVisualScheduleTime
  dsimp only
  rw [hvt]

theorem visual_day_eq (task : Task) (now : JsDate) (hh mm : Nat)
    (hvt : task.triggerConfig.visualType = some VisualType.day)
    (hvtime : task.triggerConfig.visualTime = some (hh, mm)) :
    calculateVisualScheduleTime task now =
      some (if civilLe (setHoursJs (addDays now (orOne task.triggerConfig.visualValue)) hh mm) now
            then addDays (setHoursJs (addDays now (orOne task.triggerConfig.visualValue)) hh mm)
                   (orOne task.triggerConfig.visualValue)
            else setHoursJs (addDays now (orOne task.triggerConfig.visualValue)) hh mm) := by
  unfold calculateVisualScheduleTime
  dsimp only
  rw [hvt]
  dsimp only
  rw [hvtime]

theorem visual_week_eq_none (task : Task) (now : JsDate) (hh mm : Nat)
    (hvt : task.triggerConfig.visualType = some VisualType.week)
    (hvtime : task.triggerConfig.visualTime = some (hh, mm))
    (hdays : task.triggerConfig.visualDays ≠ [])
    (hmin : listMin (task.triggerConfig.visualDays.filter
      (fun d => getDayJs now < d)) = none) :
    calculateVisualScheduleTime task now = none := by
  unfold calculateVisualScheduleTime
  dsimp only
  rw [hvt]
  dsimp only
  rw [hvtime]
  dsimp only
  rw [if_pos hdays, hmin]

theorem visual_week_eq_some (task : Task) (now : JsDate) (hh mm nd : Nat)
    (hvt : task.triggerConfig.visualType = some VisualType.week)
    (hvtime : task.triggerConfig.visualTime = some (hh, mm))
    (hdays : task.triggerConfig.visualDays ≠ [])
    (hmin : listMin (task.triggerConfig.visualDays.filter
      (fun d => getDayJs now < d)) = some nd) :
    calculateVisualScheduleTime task now =
      some (setHoursJs
        (if getDayJs now < nd then addDays now (nd - getDayJs now)
         else addDays now (7 - getDayJs now + nd)) hh mm) := by
  unfold calculateVisualScheduleTime
  dsimp only
  rw [hvt]
  dsimp only
  rw [hvtime]
  dsimp only
  rw [if_pos hdays, hmin]

theorem visual_month_eq (task : Task) (now : JsDate) (hh mm : Nat)
    (hvt : task.triggerConfig.visualType = some VisualType.month)
    (hvtime : task.triggerConfig.visualTime = some (hh, mm))
    (hdate : task.triggerConfig.visualDate ≠ 0) :
    calculateVisualScheduleTime task now =
      some (if civilLe (setHoursJs (setDayOfMonth (setMonthJs now (now.month + 1))
                task.triggerConfig.visualDate) hh mm) now
            then setMonthJs
                   (setHoursJs (setDayOfMonth (setMonthJs now (now.month + 1))
                     task.triggerConfig.visualDate) hh mm)
                   ((setHoursJs (setDayOfMonth (setMonthJs now (now.month + 1))
                     task.triggerConfig.visualDate) hh mm).month + 1)
            else setHoursJs (setDayOfMonth (setMonthJs now (now.month + 1))
                   task.triggerConfig.visualDate) hh mm) := by
  unfold calculateVisualScheduleTime
  dsimp only
  rw [hvt]
  dsimp only
  rw [hvtime]
  dsimp only
  rw [if_pos hdate]

end YTask

namespace YTask

theorem visual_none_eq (task : Task) (now : JsDate)
    (hvt : task.triggerConfig.visualType = none) :
    calculateVisualScheduleTime task now = none := by
  unfold calculateVisualScheduleTime
  dsimp only
  rw [hvt]

theorem visual_once_eq_none (task : Task) (now : JsDate)
    (hvt : task.triggerConfig.visualType = some VisualType.once)
    (hvtime : task.triggerConfig.visualTime = none) :
    calculateVisualScheduleTime task now = none := by
  unfold calculateVisualScheduleTime
  dsimp only
  rw [hvt]
  dsimp only
  rw [hvtime]

theorem visual_day_eq_none (task : Task) (now : JsDate)
    (hvt : task.triggerConfig.visualType = some VisualType.day)
    (hvtime : task.triggerConfig.visualTime = none) :
    calculateVisualScheduleTime task now = none := by
  unfold calculateVisualScheduleTime
  dsimp only
  rw [hvt]
  dsimp only
  rw [hvtime]

theorem visual_week_eq_nonetime (task : Task) (now : JsDate)
    (hvt : task.triggerConfig.visualType = some VisualType.week)
    (hvtime : task.triggerConfig.visualTime = none) :
    calculateVisualScheduleTime task now = none := by
  unfold calculateVisualScheduleTime
  dsimp only
  rw [hvt]
  dsimp only
  rw [hvtime]

theorem visual_week_eq_empty (task : Task) (now : JsDate) (hh mm : Nat)
    (hvt : task.triggerConfig.visualType = some VisualType.week)
    (hvtime : task.triggerConfig.visualTime = some (hh, mm))
    (hdays : task.triggerConfig.visualDays = []) :
    calculateVisualScheduleTime task now = none := by
  unfold calculateVisualScheduleTime
  dsimp only
  rw [hvt]
  dsimp only
  rw [hvtime]
  dsimp only
  rw [if_neg (by simp [hdays])]

theorem visual_month_eq_nonetime (task : Task) (now : JsDate)
    (hvt : task.triggerConfig.visualType = some VisualType.month)
    (hvtime : task.triggerConfig.visualTime = none) :
    calculateVisualScheduleTime task now = none := by
  unfold calculateVisualScheduleTime
  dsimp only
  rw [hvt]
  dsimp only
  rw [hvtime]

theorem visual_month_eq_zero (task : Task) (now : JsDate) (hh mm : Nat)
    (hvt : task.triggerConfig.visualType = some VisualType.month)
    (hvtime : task.triggerConfig.visualTime = some (hh, mm))
    (hdate : task.triggerConfig.visualDate = 0) :
    calculateVisualScheduleTime task now = none := by
  unfold calculateVisualScheduleTime
  dsimp only
  rw [hvt]
  dsimp only
  rw [hvtime]
  dsimp only
  rw [if_neg (by simp [hdate])]

end YTask

namespace YTask

/-- Every visual trigger computation that yields a fire time yields one
    strictly after now (for a calendar-valid now). -/
theorem calculateVisualScheduleTime_gt (task : Task) (now : JsDate) (hv : now.Valid) :
    ∀ t, calculateVisualScheduleTime task now = some t → civilLt now t = true := by
  intro t ht
  cases hvt : task.triggerConfig.visualType with
  | none =>
    rw [visual_none_eq task now hvt] at ht
    cases ht
  | some vt =>
    cases vt with
    | once =>
      cases hvtime : task.triggerConfig.visualTime with
      | none =>
        rw [visual_once_eq_none task now hvt hvtime] at ht
        cases ht
      | some p =>
        obtain ⟨hh, mm⟩ := p
        rw [visual_once_eq task now hh mm hvt hvtime] at ht
        cases Option.some.inj ht
        obtain ⟨y, m, d, tod⟩ := now
        obtain ⟨hy, hm, hd1, hd2, htod⟩ := hv
        dsimp only at *
        cases hcmp : civilLe (setHoursJs ⟨y, m, d, tod⟩ hh mm) ⟨y, m, d, tod⟩ with
        | false =>
          rw [if_neg Bool.false_ne_true]
          exact (civilLe_eq_false_iff _ _).mp hcmp
        | true =>
          rw [if_pos rfl]
          rcases Nat.eq_zero_or_pos ((hh * 3600000 + mm * 60000) / DAY_MS) with hq | hq
          · have he : setHoursJs ⟨y, m, d, tod⟩ hh mm =
                ⟨y, m, d, (hh * 3600000 + mm * 60000) % DAY_MS⟩ := by
              unfold setHoursJs onNorm
              dsimp only
              rw [hq, Nat.add_zero, normDay_eq_self y m d hd2]
            rw [he]
            unfold addDays
            dsimp only
            exact civilLt_onNorm_of_day_lt y m d tod (d + 1) _ (Nat.lt_succ_self d)
          · have hlt : civilLt ⟨y, m, d, tod⟩ (setHoursJs ⟨y, m, d, tod⟩ hh mm) = true := by
              unfold setHoursJs
              dsimp only
              exact civilLt_onNorm_of_day_lt y m d tod _ _ (Nat.lt_add_of_pos_right hq)
            have hfalse := (civilLe_eq_false_iff (setHoursJs ⟨y, m, d, tod⟩ hh mm)
              ⟨y, m, d, tod⟩).mpr hlt
            rw [hcmp] at hfalse
            cases hfalse
    | minute =>
      rw [visual_minute_eq task now hvt] at ht
      cases Option.some.inj ht
      exact civilLt_addMs now _ hv (by have := orOne_pos task.triggerConfig.visualValue; omega)
    | hour =>
      rw [visual_hour_eq task now hvt] at ht
      cases Option.some.inj ht
      exact civilLt_addMs now _ hv (by have := orOne_pos task.triggerConfig.visualValue; omega)
    | day =>
      cases hvtime : task.triggerConfig.visualTime with
      | none =>
        rw [visual_day_eq_none task now hvt hvtime] at ht
        cases ht
      | some p =>
        obtain ⟨hh, mm⟩ := p
        rw [visual_day_eq task now hh mm hvt hvtime] at ht
        cases Option.some.inj ht
        have h1 : civilLt now
            (setHoursJs (addDays now (orOne task.triggerConfig.visualValue)) hh mm) = true :=
          civilLt_of_dateLt (tripleLt_of_lt_of_le
            (addDays_date_gt now _ (orOne_pos _)) (setHoursJs_date_ge _ hh mm))
        have hc := (civilLe_eq_false_iff
          (setHoursJs (addDays now (orOne task.triggerConfig.visualValue)) hh mm) now).mpr h1
        rw [hc, if_neg Bool.false_ne_true]
        exact h1
    | week =>
      cases hvtime : task.triggerConfig.visualTime with
      | none =>
        rw [visual_week_eq_nonetime task now hvt hvtime] at ht
        cases ht
      | some p =>
        obtain ⟨hh, mm⟩ := p
        by_cases hdays : task.triggerConfig.visualDays = []
        · rw [visual_week_eq_empty task now hh mm hvt hvtime hdays] at ht
          cases ht
        · cases hmin : listMin (task.triggerConfig.visualDays.filter
            (fun d => getDayJs now < d)) with
          | none =>
            rw [visual_week_eq_none task now hh mm hvt hvtime hdays hmin] at ht
            cases ht
          | some nd =>
            rw [visual_week_eq_some task now hh mm nd hvt hvtime hdays hmin] at ht
            cases Option.some.inj ht
            have hcd := getDayJs_lt now
            by_cases hlt : getDayJs now < nd
            · rw [if_pos hlt]
              exact civilLt_of_dateLt (tripleLt_of_lt_of_le
                (addDays_date_gt now _ (by omega)) (setHoursJs_date_ge _ hh mm))
            · rw [if_neg hlt]
              exact civilLt_of_dateLt (tripleLt_of_lt_of_le
                (addDays_date_gt now _ (by omega)) (setHoursJs_date_ge _ hh mm))
    | month =>
      cases hvtime : task.triggerConfig.visualTime with
      | none =>
        rw [visual_month_eq_nonetime task now hvt hvtime] at ht
        cases ht
      | some p =>
        obtain ⟨hh, mm⟩ := p
        by_cases hdate : task.triggerConfig.visualDate = 0
        · rw [visual_month_eq_zero task now hh mm hvt hvtime hdate] at ht
          cases ht
        · rw [visual_month_eq task now hh mm hvt hvtime hdate] at ht
          cases Option.some.inj ht
          have hm : now.month ≤ 11 := hv.2.1
          have hym : ymLt now (setHoursJs (setDayOfMonth (setMonthJs now (now.month + 1))
              task.triggerConfig.visualDate) hh mm) :=
            ymLt_of_lt_of_le (ymLt_of_lt_of_le (setMonthJs_ym_gt now hm)
              (setDayOfMonth_ym_le _ _)) (setHoursJs_ym_le _ hh mm)
          have h1 := civilLt_of_ymLt hym
          have hc := (civilLe_eq_false_iff (setHoursJs (setDayOfMonth
            (setMonthJs now (now.month + 1)) task.triggerConfig.visualDate) hh mm) now).mpr h1
          rw [hc, if_neg Bool.false_ne_true]
          exact h1

end YTask

namespace YTask

theorem civilLe_of_civilLt {a b : JsDate} (h : civilLt a b = true) :
    civilLe a b = true := by
  rw [civilLt_iff] at h
  rw [civilLe_iff]
  omega

/-- Every lunar trigger computation that yields a fire time yields one
    strictly after now (for a calendar-valid now). -/
theorem calculateLunarScheduleTime_gt (task : Task) (now : JsDate) (hv : now.Valid) :
    ∀ t, calculateLunarScheduleTime task now = some t → civilLt now t = true := by
  intro t ht
  unfold calculateLunarScheduleTime at ht
  dsimp only at ht
  by_cases hguard : (task.triggerConfig.lunarYear == 0 || task.triggerConfig.lunarMonth == 0
      || task.triggerConfig.lunarDay == 0) = true
  · rw [if_pos hguard] at ht
    cases ht
  · rw [if_neg hguard] at ht
    rcases e : mkDateJs now.year (task.triggerConfig.lunarMonth - 1)
      task.triggerConfig.lunarDay with ⟨ty, tm, td, tt⟩
    rw [e] at ht
    have hy : now.year ≤ ty := by
      have h0 := onNorm_year_ge (now.year + (task.triggerConfig.lunarMonth - 1) / 12)
        ((task.triggerConfig.lunarMonth - 1) % 12) task.triggerConfig.lunarDay 0
      unfold mkDateJs at e
      rw [e] at h0
      dsimp only at h0
      omega
    cases Option.some.inj ht
    cases hcmp : civilLe ⟨ty, tm, td, tt⟩ now with
    | false =>
      rw [if_neg Bool.false_ne_true]
      exact (civilLe_eq_false_iff _ _).mp hcmp
    | true =>
      rw [if_pos rfl]
      apply civilLt_of_year_lt
      unfold setFullYearJs
      dsimp only
      have h0 := onNorm_year_ge (ty + 1) tm td tt
      omega

theorem conditional_eq (task : Task) (now : JsDate)
    (hc : task.triggerConfig.conditionType = some CondType.system_startup ∨
          task.triggerConfig.conditionType = some CondType.system_resume) :
    calculateConditionalScheduleTime task now =
      some (addMs now task.triggerConfig.conditionDelay) := by
  unfold calculateConditionalScheduleTime
  dsimp only
  rcases hc with hc | hc <;> rw [hc]

theorem conditional_eq_none (task : Task) (now : JsDate)
    (hc : task.triggerConfig.conditionType = none ∨
          task.triggerConfig.conditionType = some CondType.otherCondition) :
    calculateConditionalScheduleTime task now = none := by
  unfold calculateConditionalScheduleTime
  dsimp only
  rcases hc with hc | hc <;> rw [hc]

/-- For every non-conditional trigger kind, a computed next fire time is
    strictly after now. -/
theorem nextFireTime_strict (cronNext : String → JsDate → Option JsDate)
    (task : Task) (now : JsDate) (hv : now.Valid)
    (hcron : ∀ e u, cronNext e now = some u → civilLt now u = true)
    (hne : task.triggerType ≠ TriggerType.conditional) :
    ∀ t, nextFireTime cronNext task now = some t → civilLt now t = true := by
  intro t ht
  rcases htt : task.triggerType with _ | _ | _ | _ | _ | _ | _
  · -- cron
    unfold nextFireTime calculateNextExecutionTime at ht
    rw [htt] at ht
    dsimp only at ht
    cases hc : task.triggerConfig.cron with
    | none => rw [hc] at ht; cases ht
    | some expr =>
      rw [hc] at ht
      exact hcron expr t ht
  · -- interval
    unfold nextFireTime calculateNextExecutionTime at ht
    rw [htt] at ht
    dsimp only at ht
    by_cases hi : task.triggerConfig.interval ≠ 0
    · rw [if_pos hi] at ht
      cases Option.some.inj ht
      exact civilLt_addMs now _ hv (by omega)
    · rw [if_neg hi] at ht
      cases ht
  · -- date
    unfold nextFireTime calculateNextExecutionTime at ht
    rw [htt] at ht
    dsimp only at ht
    cases hc : task.triggerConfig.date with
    | none => rw [hc] at ht; cases ht
    | some targetTime =>
      rw [hc] at ht
      dsimp only at ht
      cases hcmp : civilLt now targetTime with
      | false => rw [hcmp] at ht; simp at ht
      | true =>
        rw [hcmp] at ht
        simp only [if_pos] at ht
        cases Option.some.inj ht
        exact hcmp
  · -- visual
    unfold nextFireTime at ht
    rw [htt] at ht
    dsimp only at ht
    exact calculateVisualScheduleTime_gt task now hv t ht
  · -- lunar
    unfold nextFireTime at ht
    rw [htt] at ht
    dsimp only at ht
    exact calculateLunarScheduleTime_gt task now hv t ht
  · -- countdown
    unfold nextFireTime at ht
    rw [htt] at ht
    dsimp only at ht
    cases hc : task.triggerConfig.countdownStartTime with
    | none => rw [hc] at ht; cases ht
    | some startTime =>
      rw [hc] at ht
      dsimp only at ht
      cases hcmp : civilLt now (countdownTarget task.triggerConfig startTime) with
      | false => rw [hcmp] at ht; simp at ht
      | true =>
        rw [hcmp] at ht
        simp only [if_pos] at ht
        cases Option.some.inj ht
        exact hcmp
  · -- conditional, excluded
    exact absurd htt hne

end YTask

namespace YTask

/-- A task with the given trigger kind and trigger configuration and
    default remaining fields, for concrete instances. -/
def mkTask (tt : TriggerType) (tc : TriggerConfig) : Task :=
  ⟨"task-1", "task-1", TaskKind.http, ⟨none, none, none, none⟩, tt, tc, 3, 5000, 30000⟩

/-- A conditional system_startup task with absent conditionDelay. -/
def condStartupTask : Task :=
  mkTask TriggerType.conditional
    { emptyTriggerConfig with conditionType := some CondType.system_startup }

/-- An interval task with interval = 60000 ms. -/
def intervalTask60k : Task :=
  mkTask TriggerType.interval { emptyTriggerConfig with interval := 60000 }

/-- A visual once task with visualTime 09:00. -/
def onceTask0900 : Task :=
  mkTask TriggerType.visual
    { emptyTriggerConfig with visualType := some VisualType.once,
                              visualTime := some (9, 0) }

/-- 2024-01-01T10:00:00 local time. -/
def now2024 : JsDate := ⟨2024, 0, 1, 36000000⟩

/-- C2 (amended): for a calendar-valid now, every computed next fire time
    is at or after now; for every trigger kind except conditional it is
    strictly after now (cron through the spec-modelled cron-parser oracle,
    assumed to return occurrences strictly after now since that library is
    not part of this repository); but for a conditional trigger of sub-kind
    system_startup or system_resume the computation returns exactly
    now + conditionDelay, which is now itself - not strictly after - when
    the delay is absent or zero. -/
theorem C2_nextFireTime_after_now (cronNext : String → JsDate → Option JsDate)
    (task : Task) (now : JsDate) (hv : now.Valid)
    (hcron : ∀ e u, cronNext e now = some u → civilLt now u = true) :
    (∀ t, nextFireTime cronNext task now = some t → civilLe now t = true) ∧
    (task.triggerType ≠ TriggerType.conditional →
      ∀ t, nextFireTime cronNext task now = some t → civilLt now t = true) ∧
    (task.triggerType = TriggerType.conditional →
      (task.triggerConfig.conditionType = some CondType.system_startup ∨
       task.triggerConfig.conditionType = some CondType.system_resume) →
      nextFireTime cronNext task now =
        some (addMs now task.triggerConfig.conditionDelay)) := by
  refine ⟨?_, fun hne => nextFireTime_strict cronNext task now hv hcron hne, ?_⟩
  · intro t ht
    by_cases hc : task.triggerType = TriggerType.conditional
    · unfold nextFireTime at ht
      rw [hc] at ht
      dsimp only at ht
      cases hct : task.triggerConfig.conditionType with
      | none =>
        rw [conditional_eq_none task now (Or.inl hct)] at ht
        cases ht
      | some ct =>
        cases ct with
        | system_startup =>
          rw [conditional_eq task now (Or.inl hct)] at ht
          cases Option.some.inj ht
          exact civilLe_addMs now _ hv
        | system_resume =>
          rw [conditional_eq task now (Or.inr hct)] at ht
          cases Option.some.inj ht
          exact civilLe_addMs now _ hv
        | otherCondition =>
          rw [conditional_eq_none task now (Or.inr hct)] at ht
          cases ht
    · exact civilLe_of_civilLt (nextFireTime_strict cronNext task now hv hcron hc t ht)
  · intro htc hsub
    unfold nextFireTime
    rw [htc]
    dsimp only
    exact conditional_eq task now hsub

/-- C2 counterexample: a conditional system_startup trigger with absent
    conditionDelay, evaluated at 2024-01-01T10:00:00, returns exactly that
    instant - a timestamp not strictly greater than now - so the claim
    that the computation never returns a timestamp ≤ now is false. -/
theorem C2_cex_conditional_returns_now :
    nextFireTime (fun _ _ => none) condStartupTask now2024 = some now2024 ∧
      civilLt now2024 now2024 = false ∧ civilLe now2024 now2024 = true := by
  refine ⟨by decide, by decide, by decide⟩

/-- C2 witness: the amended theorem applied to a concrete interval task at
    a concrete instant. -/
theorem C2_witness_interval : civilLt now2024 ⟨2024, 0, 1, 36060000⟩ = true :=
  (C2_nextFireTime_after_now (fun _ _ => none) intervalTask60k now2024 (by decide)
    (fun e u h => by cases h)).2.1 (by decide) ⟨2024, 0, 1, 36060000⟩ (by decide)

/-- C9: a visual trigger with visualType once and visualTime 09:00,
    evaluated at 2024-01-01T10:00:00 local time, computes the next fire
    time 2024-01-02T09:00:00 (the fixed time moved to the following day);
    evaluated at 2024-01-01T08:00:00 it computes today at 09:00:00 (the
    fixed time today, still in the future). -/
theorem C9_visual_once_scenario :
    calculateVisualScheduleTime onceTask0900 ⟨2024, 0, 1, 36000000⟩ =
        some ⟨2024, 0, 2, 32400000⟩ ∧
      calculateVisualScheduleTime onceTask0900 ⟨2024, 0, 1, 28800000⟩ =
        some ⟨2024, 0, 1, 32400000⟩ := by
  refine ⟨by decide, by decide⟩

end YTask


namespace YTask

/-- The calendar successor of a valid (year, month, day) triple. -/
def nextDayCivil (t : Nat × Nat × Nat) : Nat × Nat × Nat :=
  if t.2.2 < daysInMonth t.1 t.2.1 then (t.1, t.2.1, t.2.2 + 1)
  else if 11 ≤ t.2.1 then (t.1 + 1, 0, 1)
  else (t.1, t.2.1 + 1, 1)

/-- Day-of-week of a (year, month, day) triple. -/
def dow3 (t : Nat × Nat × Nat) : Nat :=
  getDayJs ⟨t.1, t.2.1, t.2.2, 0⟩

theorem getDayJs_eq_dow3 (dt : JsDate) : getDayJs dt = dow3 (dateOf dt) := rfl

theorem nextDayCivil_eq (y m d : Nat) :
    nextDayCivil (y, m, d) =
      if d < daysInMonth y m then (y, m, d + 1)
      else if 11 ≤ m then (y + 1, 0, 1) else (y, m + 1, 1) := rfl

theorem getDayJs_eq (y m d tod : Nat) :
    getDayJs ⟨y, m, d, tod⟩ =
      ((if m < 2 then y - 1 else y) + (if m < 2 then y - 1 else y) / 4
        - (if m < 2 then y - 1 else y) / 100 + (if m < 2 then y - 1 else y) / 400
        + dowTable m + d) % 7 := rfl

theorem dow3_eq (y m d : Nat) :
    dow3 (y, m, d) =
      ((if m < 2 then y - 1 else y) + (if m < 2 then y - 1 else y) / 4
        - (if m < 2 then y - 1 else y) / 100 + (if m < 2 then y - 1 else y) / 400
        + dowTable m + d) % 7 := rfl

theorem isLeapYear_iff (y : Nat) :
    isLeapYear y = true ↔ ((y % 4 = 0 ∧ ¬ y % 100 = 0) ∨ y % 400 = 0) := by
  unfold isLeapYear
  simp only [Bool.or_eq_true, Bool.and_eq_true, beq_iff_eq, bne_iff_ne, Ne]

theorem normDay_succ (y m d : Nat) (hd : 1 ≤ d) :
    normDay y m (d + 1) = nextDayCivil (normDay y m d) := by
  induction d using Nat.strong_induction_on generalizing y m with
  | _ d ih =>
    have hpos := daysInMonth_pos y m
    by_cases h1 : d + 1 ≤ daysInMonth y m
    · rw [normDay_eq_self y m (d + 1) h1, normDay_eq_self y m d (by omega),
        nextDayCivil_eq, if_pos (by omega)]
    · by_cases h2 : d ≤ daysInMonth y m
      · have hde : d = daysInMonth y m := by omega
        rw [normDay_eq_self y m d h2, nextDayCivil_eq, if_neg (by omega)]
        rw [normDay_rec y m (d + 1) (by omega)]
        have he1 : d + 1 - daysInMonth y m = 1 := by omega
        rw [he1]
        by_cases hm : 11 ≤ m
        · rw [if_pos hm, if_pos hm, normDay_eq_self (y + 1) 0 1 (daysInMonth_pos _ _)]
        · rw [if_neg hm, if_neg hm, normDay_eq_self y (m + 1) 1 (daysInMonth_pos _ _)]
      · rw [normDay_rec y m (d + 1) (by omega), normDay_rec y m d (by omega)]
        have he : d + 1 - daysInMonth y m = (d - daysInMonth y m) + 1 := by omega
        rw [he]
        by_cases hm : 11 ≤ m
        · rw [if_pos hm, if_pos hm]
          exact ih (d - daysInMonth y m) (by omega) (y + 1) 0 (by omega)
        · rw [if_neg hm, if_neg hm]
          exact ih (d - daysInMonth y m) (by omega) y (m + 1) (by omega)
theorem dow3_eq_lo (y m d : Nat) (hm : m < 2) :
    dow3 (y, m, d) =
      ((y - 1) + (y - 1) / 4 - (y - 1) / 100 + (y - 1) / 400 + dowTable m + d) % 7 := by
  rw [dow3_eq, if_pos hm]

theorem dow3_eq_hi (y m d : Nat) (hm : ¬ m < 2) :
    dow3 (y, m, d) =
      (y + y / 4 - y / 100 + y / 400 + dowTable m + d) % 7 := by
  rw [dow3_eq, if_neg hm]

set_option maxHeartbeats 1000000 in
/-- Stepping one calendar day advances the day of the week by one
    (modulo 7), for valid dates in year 1 or later. -/
theorem dow3_nextDay (y m d : Nat) (hy : 1 ≤ y) (hm : m ≤ 11) (hd1 : 1 ≤ d)
    (hd2 : d ≤ daysInMonth y m) :
    dow3 (nextDayCivil (y, m, d)) = (dow3 (y, m, d) + 1) % 7 := by
  rw [nextDayCivil_eq]
  by_cases hlt : d < daysInMonth y m
  · rw [if_pos hlt, dow3_eq, dow3_eq]
    omega
  · have hde : d = daysInMonth y m := by omega
    have hleap := isLeapYear_iff y
    rw [if_neg hlt]
    interval_cases m
    · rw [if_neg (by omega)]
      simp only [daysInMonth] at hde
      subst hde
      rw [dow3_eq_lo y 1 1 (by omega), dow3_eq_lo y 0 31 (by omega)]
      simp only [dowTable]
      omega
    · rw [if_neg (by omega)]
      by_cases hly : isLeapYear y = true
      · rw [show daysInMonth y 1 = 29 by simp [daysInMonth, hly]] at hde
        subst hde
        rw [hleap] at hly
        rw [dow3_eq_hi y 2 1 (by omega), dow3_eq_lo y 1 29 (by omega)]
        simp only [dowTable]
        rcases hly with ⟨h4, h100⟩ | h400
        · rw [show (y - 1) / 4 = y / 4 - 1 from by omega,
              show (y - 1) / 100 = y / 100 from by omega,
              show (y - 1) / 400 = y / 400 from by omega]
          omega
        · have h4 : y % 4 = 0 := by omega
          have h100 : y % 100 = 0 := by omega
          rw [show (y - 1) / 4 = y / 4 - 1 from by omega,
              show (y - 1) / 100 = y / 100 - 1 from by omega,
              show (y - 1) / 400 = y / 400 - 1 from by omega]
          omega
      · rw [show daysInMonth y 1 = 28 by simp [daysInMonth, hly]] at hde
        subst hde
        rw [hleap] at hly
        rw [dow3_eq_hi y 2 1 (by omega), dow3_eq_lo y 1 28 (by omega)]
        simp only [dowTable]
        by_cases h4 : y % 4 = 0
        · have h100 : y % 100 = 0 := by omega
          have h400 : ¬ y % 400 = 0 := by omega
          rw [show (y - 1) / 4 = y / 4 - 1 from by omega,
              show (y - 1) / 100 = y / 100 - 1 from by omega,
              show (y - 1) / 400 = y / 400 from by omega]
          omega
        · have h100 : ¬ y % 100 = 0 := by omega
          have h400 : ¬ y % 400 = 0 := by omega
          rw [show (y - 1) / 4 = y / 4 from by omega,
              show (y - 1) / 100 = y / 100 from by omega,
              show (y - 1) / 400 = y / 400 from by omega]
          omega
    · rw [if_neg (by omega)]
      simp only [daysInMonth] at hde
      subst hde
      rw [dow3_eq_hi y 3 1 (by omega), dow3_eq_hi y 2 31 (by omega)]
      simp only [dowTable]
      omega
    · rw [if_neg (by omega)]
      simp only [daysInMonth] at hde
      subst hde
      rw [dow3_eq_hi y 4 1 (by omega), dow3_eq_hi y 3 30 (by omega)]
      simp only [dowTable]
      omega
    · rw [if_neg (by omega)]
      simp only [daysInMonth] at hde
      subst hde
      rw [dow3_eq_hi y 5 1 (by omega), dow3_eq_hi y 4 31 (by omega)]
      simp only [dowTable]
      omega
    · rw [if_neg (by omega)]
      simp only [daysInMonth] at hde
      subst hde
      rw [dow3_eq_hi y 6 1 (by omega), dow3_eq_hi y 5 30 (by omega)]
      simp only [dowTable]
      omega
    · rw [if_neg (by omega)]
      simp only [daysInMonth] at hde
      subst hde
      rw [dow3_eq_hi y 7 1 (by omega), dow3_eq_hi y 6 31 (by omega)]
      simp only [dowTable]
      omega
    · rw [if_neg (by omega)]
      simp only [daysInMonth] at hde
      subst hde
      rw [dow3_eq_hi y 8 1 (by omega), dow3_eq_hi y 7 31 (by omega)]
      simp only [dowTable]
      omega
    · rw [if_neg (by omega)]
      simp only [daysInMonth] at hde
      subst hde
      rw [dow3_eq_hi y 9 1 (by omega), dow3_eq_hi y 8 30 (by omega)]
      simp only [dowTable]
      omega
    · rw [if_neg (by omega)]
      simp only [daysInMonth] at hde
      subst hde
      rw [dow3_eq_hi y 10 1 (by omega), dow3_eq_hi y 9 31 (by omega)]
      simp only [dowTable]
      omega
    · rw [if_neg (by omega)]
      simp only [daysInMonth] at hde
      subst hde
      rw [dow3_eq_hi y 11 1 (by omega), dow3_eq_hi y 10 30 (by omega)]
      simp only [dowTable]
      omega
    · rw [if_pos (by omega)]
      simp only [daysInMonth] at hde
      subst hde
      rw [dow3_eq_lo (y + 1) 0 1 (by omega), dow3_eq_hi y 11 31 (by omega)]
      simp only [dowTable]
      have he : y + 1 - 1 = y := by omega
      rw [he]
      omega

end YTask

namespace YTask

theorem dow3_lt (t : Nat × Nat × Nat) : dow3 t < 7 :=
  getDayJs_lt _

/-- Advancing a valid date by k calendar days advances its weekday by k
    modulo 7. -/
theorem dow3_normDay_add (y m d : Nat) (hy : 1 ≤ y) (hm : m ≤ 11) (hd1 : 1 ≤ d)
    (hd2 : d ≤ daysInMonth y m) (k : Nat) :
    dow3 (normDay y m (d + k)) = (dow3 (y, m, d) + k) % 7 := by
  induction k with
  | zero =>
    rw [Nat.add_zero, normDay_eq_self y m d hd2, Nat.add_zero,
      Nat.mod_eq_of_lt (dow3_lt _)]
  | succ k ih =>
    have hstep : normDay y m (d + (k + 1)) = nextDayCivil (normDay y m (d + k)) := by
      rw [show d + (k + 1) = (d + k) + 1 from by omega]
      exact normDay_succ y m (d + k) (by omega)
    rw [hstep]
    rcases e : normDay y m (d + k) with ⟨y2, m2, d2⟩
    have hval := normDay_valid y m (d + k) hm (by omega)
    rw [e] at hval ih
    dsimp only at hval
    have hstep2 := dow3_nextDay y2 m2 d2 (by omega) (by omega) (by omega) (by omega)
    rw [hstep2, ih]
    omega

theorem setHoursJs_keep (a : JsDate) (hh mm : Nat)
    (hd : a.day ≤ daysInMonth a.year a.month) (hh23 : hh ≤ 23) (hmm59 : mm ≤ 59) :
    setHoursJs a hh mm = ⟨a.year, a.month, a.day, hh * 3600000 + mm * 60000⟩ := by
  unfold setHoursJs onNorm
  dsimp only
  have hlt : hh * 3600000 + mm * 60000 < DAY_MS := by
    unfold DAY_MS
    omega
  rw [Nat.div_eq_of_lt hlt, Nat.mod_eq_of_lt hlt, Nat.add_zero,
    normDay_eq_self _ _ _ hd]

theorem listMin_mem : ∀ (l : List Nat) (x : Nat), listMin l = some x → x ∈ l := by
  intro l
  induction l with
  | nil =>
    intro x h
    cases h
  | cons a rest ih =>
    intro x h
    cases rest with
    | nil =>
      unfold listMin at h
      cases Option.some.inj h
      exact List.mem_cons_self a _
    | cons b t =>
      unfold listMin at h
      cases e : listMin (b :: t) with
      | none =>
        rw [e] at h
        cases Option.some.inj h
        exact List.mem_cons_self a _
      | some c =>
        rw [e] at h
        cases Option.some.inj h
        by_cases hac : a ≤ c
        · rw [show a.min c = a from min_eq_left hac]
          exact List.mem_cons_self a _
        · rw [show a.min c = c from min_eq_right (le_of_not_le hac)]
          exact List.mem_cons_of_mem a (ih c e)

theorem listMin_cons_some : ∀ (a : Nat) (l : List Nat), ∃ c, listMin (a :: l) = some c := by
  intro a l
  induction l generalizing a with
  | nil => exact ⟨a, rfl⟩
  | cons b t ih =>
    obtain ⟨c, hc⟩ := ih b
    refine ⟨a.min c, ?_⟩
    unfold listMin
    rw [hc]

theorem listMin_le : ∀ (l : List Nat) (x : Nat), listMin l = some x →
    ∀ z ∈ l, x ≤ z := by
  intro l
  induction l with
  | nil =>
    intro x h
    cases h
  | cons a rest ih =>
    intro x h z hz
    cases rest with
    | nil =>
      unfold listMin at h
      cases Option.some.inj h
      rcases List.mem_cons.mp hz with hz | hz
      · omega
      · cases hz
    | cons b t =>
      unfold listMin at h
      cases e : listMin (b :: t) with
      | none =>
        obtain ⟨c, hc⟩ := listMin_cons_some b t
        rw [hc] at e
        cases e
      | some c =>
        rw [e] at h
        cases Option.some.inj h
        rcases List.mem_cons.mp hz with hz | hz
        · rw [hz]
          exact Nat.min_le_left a c
        · exact Nat.le_trans (Nat.min_le_right a c) (ih c e z hz)

end YTask

namespace YTask

set_option maxHeartbeats 1000000 in
/-- C5 (amended): for a visual week trigger with a valid fixed time and a
    weekday set drawn from 0..6, evaluated at a calendar-valid now: when
    some configured weekday lies strictly later in the current week, the
    computed next fire time is the smallest such weekday at the fixed time,
    strictly after now, and its day of the week is that weekday; but when
    no configured weekday strictly later in the current week remains, the
    computation returns no fire time (null) instead of wrapping to the
    next week. -/
theorem C5_visual_week_behaviour (task : Task) (now : JsDate) (hh mm : Nat)
    (hv : now.Valid)
    (hvt : task.triggerConfig.visualType = some VisualType.week)
    (hvtime : task.triggerConfig.visualTime = some (hh, mm))
    (hh23 : hh ≤ 23) (hmm59 : mm ≤ 59)
    (hdays6 : ∀ x ∈ task.triggerConfig.visualDays, x ≤ 6) :
    (listMin (task.triggerConfig.visualDays.filter (fun d => getDayJs now < d)) =
        none → calculateVisualScheduleTime task now = none) ∧
    (∀ nd, listMin (task.triggerConfig.visualDays.filter
        (fun d => getDayJs now < d)) = some nd →
      calculateVisualScheduleTime task now =
          some (setHoursJs (addDays now (nd - getDayJs now)) hh mm) ∧
        civilLt now (setHoursJs (addDays now (nd - getDayJs now)) hh mm) = true ∧
        getDayJs (setHoursJs (addDays now (nd - getDayJs now)) hh mm) = nd ∧
        nd ∈ task.triggerConfig.visualDays ∧ getDayJs now < nd ∧
        (∀ z ∈ task.triggerConfig.visualDays, getDayJs now < z → nd ≤ z)) := by
  constructor
  · intro hmin
    by_cases hdd : task.triggerConfig.visualDays = []
    · exact visual_week_eq_empty task now hh mm hvt hvtime hdd
    · exact visual_week_eq_none task now hh mm hvt hvtime hdd hmin
  · intro nd hmin
    have hndf := listMin_mem _ _ hmin
    have hndm := List.mem_filter.mp hndf
    have hcd : getDayJs now < nd := by
      have := hndm.2
      simpa using this
    have hdd : task.triggerConfig.visualDays ≠ [] := by
      intro he
      rw [he] at hndm
      cases hndm.1
    have heq := visual_week_eq_some task now hh mm nd hvt hvtime hdd hmin
    rw [if_pos hcd] at heq
    refine ⟨heq, ?_, ?_, hndm.1, hcd, ?_⟩
    · exact civilLt_of_dateLt (tripleLt_of_lt_of_le
        (addDays_date_gt now _ (by omega)) (setHoursJs_date_ge _ hh mm))
    · obtain ⟨y, m, d, tod⟩ := now
      obtain ⟨hy, hm, hd1, hd2, htod⟩ := hv
      dsimp only at *
      unfold addDays
      dsimp only
      rcases e : normDay y m (d + (nd - getDayJs ⟨y, m, d, tod⟩)) with ⟨y2, m2, d2⟩
      have hval := normDay_valid y m (d + (nd - getDayJs ⟨y, m, d, tod⟩)) hm (by omega)
      rw [e] at hval
      dsimp only at hval
      unfold onNorm
      rw [e]
      dsimp only
      rw [setHoursJs_keep ⟨y2, m2, d2, tod⟩ hh mm (by dsimp only; omega) hh23 hmm59]
      have hshift := dow3_normDay_add y m d hy hm hd1 hd2 (nd - getDayJs ⟨y, m, d, tod⟩)
      rw [e] at hshift
      have hnow : getDayJs ⟨y, m, d, tod⟩ = dow3 (y, m, d) := rfl
      have hres : getDayJs ⟨y2, m2, d2, hh * 3600000 + mm * 60000⟩ = dow3 (y2, m2, d2) := rfl
      rw [hres]
      rw [hnow] at hshift hcd
      have hnd6 : nd ≤ 6 := hdays6 nd hndm.1
      omega
    · intro z hz hzgt
      exact listMin_le _ _ hmin z (List.mem_filter.mpr ⟨hz, by simpa using hzgt⟩)

/-- A visual week task whose only configured weekday is Monday (1),
    firing at 09:00. -/
def weekTaskMonday : Task :=
  mkTask TriggerType.visual
    { emptyTriggerConfig with visualType := some VisualType.week,
                              visualTime := some (9, 0), visualDays := [1] }

/-- A visual week task whose only configured weekday is Wednesday (3),
    firing at 09:00. -/
def weekTaskWednesday : Task :=
  mkTask TriggerType.visual
    { emptyTriggerConfig with visualType := some VisualType.week,
                              visualTime := some (9, 0), visualDays := [3] }

/-- C5 counterexample: on Tuesday 2024-01-02 (weekday 2) with the
    non-empty configured weekday set [1] (Monday) and fixed time 09:00,
    the computation returns null instead of wrapping to Monday of the next
    week. -/
theorem C5_cex_week_no_wrap :
    calculateVisualScheduleTime weekTaskMonday ⟨2024, 0, 2, 36000000⟩ = none ∧
      getDayJs ⟨2024, 0, 2, 36000000⟩ = 2 ∧
      (1 : Nat) ∈ weekTaskMonday.triggerConfig.visualDays := by
  refine ⟨by decide, by decide, by decide⟩

/-- C5 witness: the amended theorem applied to a Wednesday-only week task
    on a Tuesday. -/
theorem C5_witness_week :
    calculateVisualScheduleTime weekTaskWednesday ⟨2024, 0, 2, 36000000⟩ =
      some (setHoursJs (addDays ⟨2024, 0, 2, 36000000⟩
        (3 - getDayJs ⟨2024, 0, 2, 36000000⟩)) 9 0) :=
  ((C5_visual_week_behaviour weekTaskWednesday ⟨2024, 0, 2, 36000000⟩ 9 0
    (by decide) rfl rfl (by omega) (by omega) (by decide)).2 3 (by decide)).1

end YTask

namespace YTask

/-- C6 (amended): for a visual month trigger with a fixed time and a
    nonzero configured day-of-month, evaluated at a calendar-valid now,
    the computed next fire time is obtained by advancing now's month by
    one (with calendar rollover), then setting the configured day-of-month
    and the fixed time; it is strictly after now and its (year, month) is
    strictly after now's - the fire never falls in the current month, even
    when the configured day-of-month at that time has not yet passed this
    month, and the tie-break advance by one further month never fires. -/
theorem C6_visual_month_behaviour (task : Task) (now : JsDate) (hh mm : Nat)
    (hv : now.Valid)
    (hvt : task.triggerConfig.visualType = some VisualType.month)
    (hvtime : task.triggerConfig.visualTime = some (hh, mm))
    (hdate : task.triggerConfig.visualDate ≠ 0) :
    calculateVisualScheduleTime task now =
        some (setHoursJs (setDayOfMonth (setMonthJs now (now.month + 1))
          task.triggerConfig.visualDate) hh mm) ∧
      civilLt now (setHoursJs (setDayOfMonth (setMonthJs now (now.month + 1))
        task.triggerConfig.visualDate) hh mm) = true ∧
      ymLt now (setHoursJs (setDayOfMonth (setMonthJs now (now.month + 1))
        task.triggerConfig.visualDate) hh mm) := by
  have hym : ymLt now (setHoursJs (setDayOfMonth (setMonthJs now (now.month + 1))
      task.triggerConfig.visualDate) hh mm) :=
    ymLt_of_lt_of_le (ymLt_of_lt_of_le (setMonthJs_ym_gt now hv.2.1)
      (setDayOfMonth_ym_le _ _)) (setHoursJs_ym_le _ hh mm)
  have h1 := civilLt_of_ymLt hym
  have hc := (civilLe_eq_false_iff (setHoursJs (setDayOfMonth
    (setMonthJs now (now.month + 1)) task.triggerConfig.visualDate) hh mm) now).mpr h1
  have heq := visual_month_eq task now hh mm hvt hvtime hdate
  rw [hc, if_neg Bool.false_ne_true] at heq
  exact ⟨heq, h1, hym⟩

/-- A visual month task with day-of-month 20 and fixed time 09:00. -/
def monthTask20 : Task :=
  mkTask TriggerType.visual
    { emptyTriggerConfig with visualType := some VisualType.month,
                              visualTime := some (9, 0), visualDate := 20 }

/-- C6 counterexample: evaluated at 2024-01-05T08:00, with day-of-month 20
    at 09:00, the day-of-month at that time has not yet passed this month
    (2024-01-20T09:00 is still in the future), yet the computation returns
    2024-02-20T09:00, in the next month rather than the current one. -/
theorem C6_cex_month_skips_current :
    calculateVisualScheduleTime monthTask20 ⟨2024, 0, 5, 28800000⟩ =
        some ⟨2024, 1, 20, 32400000⟩ ∧
      civilLt ⟨2024, 0, 5, 28800000⟩ ⟨2024, 0, 20, 32400000⟩ = true ∧
      (⟨2024, 1, 20, 32400000⟩ : JsDate).month ≠
        (⟨2024, 0, 5, 28800000⟩ : JsDate).month := by
  refine ⟨by decide, by decide, by decide⟩

/-- C6 witness: the amended theorem applied at a concrete task and
    instant. -/
theorem C6_witness_month :
    calculateVisualScheduleTime monthTask20 ⟨2024, 0, 5, 28800000⟩ =
      some (setHoursJs (setDayOfMonth (setMonthJs ⟨2024, 0, 5, 28800000⟩
        ((⟨2024, 0, 5, 28800000⟩ : JsDate).month + 1))
        monthTask20.triggerConfig.visualDate) 9 0) :=
  (C6_visual_month_behaviour monthTask20 ⟨2024, 0, 5, 28800000⟩ 9 0
    (by decide) rfl rfl (by decide)).1

end YTask

namespace YTask

/-- The opaque handle a scheduleTask call arms.  The constructor tags what
    the armed callback does on fire, read off the callback bodies in
    scheduleTask: cron jobs and setInterval timers are persistent and their
    callbacks only call executeTask; setTimeout handles are one-shot, and
    the visual (non-once) and lunar (lunarRepeat) callbacks additionally
    call scheduleTask(task) again after executing. -/
inductive TimerHandle
  | cronJob (expr : String)
  | intervalTimer (ms : Nat)
  | timeoutOnce (fireAt : JsDate)
  | timeoutReschedule (fireAt : JsDate)
deriving Repr, DecidableEq

/-- Whether the armed callback re-invokes scheduleTask after executing. -/
def reschedulesOnFire : TimerHandle → Bool
  | TimerHandle.timeoutReschedule _ => true
  | _ => false

/-- Whether the handle is a persistent repeating timer (setInterval/cron)
    rather than a one-shot setTimeout. -/
def persistentHandle : TimerHandle → Bool
  | TimerHandle.cronJob _ => true
  | TimerHandle.intervalTimer _ => true
  | _ => false

/-- The tasks-table row fields the scheduler reads or writes. -/
structure TaskRow where
  nextExecutionTime : Option JsDate
  lastExecutionTime : Option JsDate
  updatedAt : Option JsDate
deriving Repr, DecidableEq

/-- The scheduler state: the two dispatch maps of the TaskScheduler class
    (scheduledTasks holds cron handles, runningTasks holds
    setInterval/setTimeout handles) and the tasks table rows. -/
structure SchedState where
  scheduledTasks : String → Option TimerHandle
  runningTasks : String → Option TimerHandle
  tasks : String → Option TaskRow

theorem SchedState.ext2 {a b : SchedState}
    (h1 : ∀ i, a.scheduledTasks i = b.scheduledTasks i)
    (h2 : ∀ i, a.runningTasks i = b.runningTasks i)
    (h3 : ∀ i, a.tasks i = b.tasks i) : a = b := by
  obtain ⟨f1, f2, f3⟩ := a
  obtain ⟨g1, g2, g3⟩ := b
  simp only at h1 h2 h3
  have e1 : f1 = g1 := funext h1
  have e2 : f2 = g2 := funext h2
  have e3 : f3 = g3 := funext h3
  rw [e1, e2, e3]

/-- Embeds TaskScheduler.stopTask (lines 156-179): delete the task's entry
    from both maps, then run
    UPDATE tasks SET next_execution_time = NULL, updated_at = now.
    Idempotent on the maps; the db update runs even when no timer exists. -/
def stopTaskState (taskId : String) (now : JsDate) (s : SchedState) : SchedState :=
  { scheduledTasks := fun i => if i = taskId then none else s.scheduledTasks i,
    runningTasks := fun i => if i = taskId then none else s.runningTasks i,
    tasks := fun i =>
      if i = taskId then
        (s.tasks i).map (fun r =>
          { r with nextExecutionTime := none, updatedAt := some now })
      else s.tasks i }

/-- The map-clearing first half of stopTask (runs before its db write). -/
def stopMaps (taskId : String) (s : SchedState) : SchedState :=
  { scheduledTasks := fun i => if i = taskId then none else s.scheduledTasks i,
    runningTasks := fun i => if i = taskId then none else s.runningTasks i,
    tasks := s.tasks }

/-- The db-write second half of stopTask. -/
def stopDb (taskId : String) (now : JsDate) (s : SchedState) : SchedState :=
  { s with tasks := fun i =>
      if i = taskId then
        (s.tasks i).map (fun r =>
          { r with nextExecutionTime := none, updatedAt := some now })
      else s.tasks i }

/-- Failure injection for the fallible steps of scheduleTask: the db.run
    inside stopTask, the timer/cron arming call, and the final
    next_execution_time db update may each throw; scheduleTask's catch
    handler turns any of them into a false return. -/
structure FailEnv where
  stopDbFails : Bool
  armFails : Bool
  updateDbFails : Bool
deriving Repr, DecidableEq

/-- The no-failure environment (normal operation). -/
def noFail : FailEnv := ⟨false, false, false⟩

/-- Store a cron handle in the scheduledTasks map. -/
def setCronHandle (taskId : String) (h : TimerHandle) (s : SchedState) : SchedState :=
  { s with scheduledTasks := fun i => if i = taskId then some h else s.scheduledTasks i }

/-- Store a timer handle in the runningTasks map. -/
def setTimerHandle (taskId : String) (h : TimerHandle) (s : SchedState) : SchedState :=
  { s with runningTasks := fun i => if i = taskId then some h else s.runningTasks i }

/-- The tail of scheduleTask (lines 139-153): write the computed next
    execution time (when there is one) and updated_at to the tasks table
    and return true; an injected db failure returns false instead. -/
def scheduleFinish (env : FailEnv) (taskId : String) (now : JsDate)
    (s : SchedState) (next : Option JsDate) : Bool × SchedState :=
  match next with
  | some t =>
    if env.updateDbFails then (false, s)
    else
      (true,
        { s with tasks := fun i =>
            if i = taskId then
              (s.tasks i).map (fun r =>
                { r with nextExecutionTime := some t, updatedAt := some now })
            else s.tasks i })
  | none => (true, s)

/-- Embeds TaskScheduler.scheduleTask (lines 32-154), with the ambient
    new Date()/Date.now() passed as now.  The source's else-if chain on
    task.triggerType with truthiness guards on the kind's config field is
    rendered as a match on the trigger kind with the same guards; a task
    whose guard fails falls through to the no-timer tail exactly as in the
    source.  Each fallible step is cut short by its FailEnv flag, standing
    for a thrown error caught by the surrounding try/catch, which returns
    false. -/
def scheduleTaskState (cronNext : String → JsDate → Option JsDate) (env : FailEnv)
    (task : Task) (now : JsDate) (s : SchedState) : Bool × SchedState :=
  let s1 := stopMaps task.id s
  if env.stopDbFails then (false, s1) else
  let s2 := stopDb task.id now s1
  match task.triggerType with
  | TriggerType.cron =>
    match task.triggerConfig.cron with
    | some expr =>
      if env.armFails then (false, s2)
      else
        scheduleFinish env task.id now
          (setCronHandle task.id (TimerHandle.cronJob expr) s2)
          (calculateNextExecutionTime cronNext task now)
    | none => scheduleFinish env task.id now s2 none
  | TriggerType.interval =>
    if task.triggerConfig.interval ≠ 0 then
      if env.armFails then (false, s2)
      else
        scheduleFinish env task.id now
          (setTimerHandle task.id (TimerHandle.intervalTimer task.triggerConfig.interval) s2)
          (some (addMs now task.triggerConfig.interval))
    else scheduleFinish env task.id now s2 none
  | TriggerType.date =>
    match task.triggerConfig.date with
    | some targetTime =>
      if civilLt now targetTime then
        if env.armFails then (false, s2)
        else
          scheduleFinish env task.id now
            (setTimerHandle task.id (TimerHandle.timeoutOnce targetTime) s2)
            (some targetTime)
      else scheduleFinish env task.id now s2 none
    | none => scheduleFinish env task.id now s2 none
  | TriggerType.visual =>
    match task.triggerConfig.visualType with
    | some vt =>
      match calculateVisualScheduleTime task now with
      | some t =>
        if civilLt now t then
          if env.armFails then (false, s2)
          else
            scheduleFinish env task.id now
              (setTimerHandle task.id
                (if vt ≠ VisualType.once then TimerHandle.timeoutReschedule t
                 else TimerHandle.timeoutOnce t) s2)
              (some t)
        else scheduleFinish env task.id now s2 (some t)
      | none => scheduleFinish env task.id now s2 none
    | none => scheduleFinish env task.id now s2 none
  | TriggerType.lunar =>
    if task.triggerConfig.lunarDay ≠ 0 then
      match calculateLunarScheduleTime task now with
      | some t =>
        if civilLt now t then
          if env.armFails then (false, s2)
          else
            scheduleFinish env task.id now
              (setTimerHandle task.id
                (if task.triggerConfig.lunarRepeat then TimerHandle.timeoutReschedule t
                 else TimerHandle.timeoutOnce t) s2)
              (some t)
        else scheduleFinish env task.id now s2 (some t)
      | none => scheduleFinish env task.id now s2 none
    else scheduleFinish env task.id now s2 none
  | TriggerType.countdown =>
    match task.triggerConfig.countdownStartTime with
    | some startTime =>
      let targetTime := countdownTarget task.triggerConfig startTime
      if civilLt now targetTime then
        if env.armFails then (false, s2)
        else
          scheduleFinish env task.id now
            (setTimerHandle task.id (TimerHandle.timeoutOnce targetTime) s2)
            (some targetTime)
      else scheduleFinish env task.id now s2 none
    | none => scheduleFinish env task.id now s2 none
  | TriggerType.conditional =>
    scheduleFinish env task.id now s2 (calculateConditionalScheduleTime task now)

/-- Embeds TaskScheduler.shutdown (lines 651-669): stop every cron handle
    and clear every timer; no database writes. -/
def shutdownState (s : SchedState) : SchedState :=
  { s with scheduledTasks := fun _ => none, runningTasks := fun _ => none }

/-- The tasks-table effect of executeTask (lines 519-522): refresh
    last_execution_time and updated_at.  executeTask never touches the
    dispatch maps. -/
def executeTaskDbState (taskId : String) (startedAt : JsDate) (s : SchedState) : SchedState :=
  { s with tasks := fun i =>
      if i = taskId then
        (s.tasks i).map (fun r =>
          { r with lastExecutionTime := some startedAt, updatedAt := some startedAt })
      else s.tasks i }

end YTask

namespace YTask

/-- Whether the branch of scheduleTask for this task reaches a timer/cron
    arming call (derived observable of scheduleTaskState, a pure function
    of the task and now). -/
def armWanted (task : Task) (now : JsDate) : Bool :=
  match task.triggerType with
  | TriggerType.cron => task.triggerConfig.cron.isSome
  | TriggerType.interval => if task.triggerConfig.interval ≠ 0 then true else false
  | TriggerType.date =>
    match task.triggerConfig.date with
    | some t => civilLt now t
    | none => false
  | TriggerType.visual =>
    match task.triggerConfig.visualType with
    | some _ =>
      match calculateVisualScheduleTime task now with
      | some t => civilLt now t
      | none => false
    | none => false
  | TriggerType.lunar =>
    if task.triggerConfig.lunarDay ≠ 0 then
      match calculateLunarScheduleTime task now with
      | some t => civilLt now t
      | none => false
    else false
  | TriggerType.countdown =>
    match task.triggerConfig.countdownStartTime with
    | some st => civilLt now (countdownTarget task.triggerConfig st)
    | none => false
  | TriggerType.conditional => false

/-- Which handle a scheduleTask call leaves armed, and in which map
    (true = the cron map scheduledTasks, false = runningTasks); none when
    the call leaves nothing armed (derived observable of
    scheduleTaskState). -/
def armDecision (env : FailEnv) (task : Task) (now : JsDate) :
    Option (Bool × TimerHandle) :=
  if env.stopDbFails || env.armFails then none else
  match task.triggerType with
  | TriggerType.cron =>
    match task.triggerConfig.cron with
    | some expr => some (true, TimerHandle.cronJob expr)
    | none => none
  | TriggerType.interval =>
    if task.triggerConfig.interval ≠ 0 then
      some (false, TimerHandle.intervalTimer task.triggerConfig.interval)
    else none
  | TriggerType.date =>
    match task.triggerConfig.date with
    | some t => if civilLt now t then some (false, TimerHandle.timeoutOnce t) else none
    | none => none
  | TriggerType.visual =>
    match task.triggerConfig.visualType with
    | some vt =>
      match calculateVisualScheduleTime task now with
      | some t =>
        if civilLt now t then
          some (false, if vt ≠ VisualType.once then TimerHandle.timeoutReschedule t
                       else TimerHandle.timeoutOnce t)
        else none
      | none => none
    | none => none
  | TriggerType.lunar =>
    if task.triggerConfig.lunarDay ≠ 0 then
      match calculateLunarScheduleTime task now with
      | some t =>
        if civilLt now t then
          some (false, if task.triggerConfig.lunarRepeat then TimerHandle.timeoutReschedule t
                       else TimerHandle.timeoutOnce t)
        else none
      | none => none
    else none
  | TriggerType.countdown =>
    match task.triggerConfig.countdownStartTime with
    | some st =>
      if civilLt now (countdownTarget task.triggerConfig st) then
        some (false, TimerHandle.timeoutOnce (countdownTarget task.triggerConfig st))
      else none
    | none => none
  | TriggerType.conditional => none

/-- The next execution time a scheduleTask call hands to its final db
    update; none when no write is attempted (derived observable of
    scheduleTaskState). -/
def writtenNext (cronNext : String → JsDate → Option JsDate) (env : FailEnv)
    (task : Task) (now : JsDate) : Option JsDate :=
  if env.stopDbFails then none else
  match task.triggerType with
  | TriggerType.cron =>
    match task.triggerConfig.cron with
    | some _ => if env.armFails then none else calculateNextExecutionTime cronNext task now
    | none => none
  | TriggerType.interval =>
    if task.triggerConfig.interval ≠ 0 then
      if env.armFails then none else some (addMs now task.triggerConfig.interval)
    else none
  | TriggerType.date =>
    match task.triggerConfig.date with
    | some t =>
      if civilLt now t then (if env.armFails then none else some t) else none
    | none => none
  | TriggerType.visual =>
    match task.triggerConfig.visualType with
    | some _ =>
      match calculateVisualScheduleTime task now with
      | some t => if civilLt now t then (if env.armFails then none else some t) else some t
      | none => none
    | none => none
  | TriggerType.lunar =>
    if task.triggerConfig.lunarDay ≠ 0 then
      match calculateLunarScheduleTime task now with
      | some t => if civilLt now t then (if env.armFails then none else some t) else some t
      | none => none
    else none
  | TriggerType.countdown =>
    match task.triggerConfig.countdownStartTime with
    | some st =>
      if civilLt now (countdownTarget task.triggerConfig st) then
        if env.armFails then none else some (countdownTarget task.triggerConfig st)
      else none
    | none => none
  | TriggerType.conditional => calculateConditionalScheduleTime task now

/-- The transformation a scheduleTask call applies to the task's table
    row: the internal stop clears next_execution_time and refreshes
    updated_at, and a successful final update overwrites both (derived
    observable of scheduleTaskState). -/
def rowUpdate (cronNext : String → JsDate → Option JsDate) (env : FailEnv)
    (task : Task) (now : JsDate) : TaskRow → TaskRow := fun r =>
  if env.stopDbFails then r else
  match writtenNext cronNext env task now with
  | some t =>
    if env.updateDbFails then { r with nextExecutionTime := none, updatedAt := some now }
    else { r with nextExecutionTime := some t, updatedAt := some now }
  | none => { r with nextExecutionTime := none, updatedAt := some now }

/-- The boolean scheduleTask returns (derived observable). -/
def schedOk (cronNext : String → JsDate → Option JsDate) (env : FailEnv)
    (task : Task) (now : JsDate) : Bool :=
  if env.stopDbFails then false
  else if env.armFails && armWanted task now then false
  else if env.updateDbFails && (writtenNext cronNext env task now).isSome then false
  else true

end YTask

namespace YTask

set_option maxHeartbeats 2000000 in
/-- scheduleTask returns exactly the derived observable schedOk: true,
    unless a failure is injected at an executed step. -/
theorem scheduleTaskState_returns (cronNext : String → JsDate → Option JsDate)
    (env : FailEnv) (task : Task) (now : JsDate) (s : SchedState) :
    (scheduleTaskState cronNext env task now s).1 = schedOk cronNext env task now := by
  unfold scheduleTaskState schedOk armWanted writtenNext scheduleFinish
  dsimp only
  by_cases hsf : env.stopDbFails <;> simp only [hsf, if_true, if_false, Bool.false_eq_true]
  cases task.triggerType <;> dsimp only <;> repeat' split
  all_goals simp_all

theorem Option_map_ext {α β : Type} {f g : α → β} (x : Option α)
    (h : ∀ r, f r = g r) : x.map f = x.map g := by
  cases x with
  | none => rfl
  | some a =>
    show some (f a) = some (g a)
    rw [h a]

theorem rowUpdate_def (cronNext : String → JsDate → Option JsDate)
    (env : FailEnv) (task : Task) (now : JsDate) :
    rowUpdate cronNext env task now = fun r =>
      if env.stopDbFails then r else
      match writtenNext cronNext env task now with
      | some t =>
        if env.updateDbFails then { r with nextExecutionTime := none, updatedAt := some now }
        else { r with nextExecutionTime := some t, updatedAt := some now }
      | none => { r with nextExecutionTime := none, updatedAt := some now } := rfl

theorem rowUpdate_stopDbFails (cronNext : String → JsDate → Option JsDate)
    (env : FailEnv) (task : Task) (now : JsDate) (h : env.stopDbFails = true) :
    rowUpdate cronNext env task now = id := by
  funext r
  unfold rowUpdate
  rw [if_pos h]
  rfl

set_option maxHeartbeats 2000000 in
/-- The state a scheduleTask call leaves behind: both maps are cleared at
    the task id and replaced by the armDecision handle (if any), other ids
    are untouched, and the task's table row undergoes rowUpdate. -/
theorem scheduleTaskState_state (cronNext : String → JsDate → Option JsDate)
    (env : FailEnv) (task : Task) (now : JsDate) (s : SchedState) :
    (scheduleTaskState cronNext env task now s).2 =
      { scheduledTasks := fun i =>
          if i = task.id then
            (match armDecision env task now with
             | some (true, h) => some h
             | _ => none)
          else s.scheduledTasks i,
        runningTasks := fun i =>
          if i = task.id then
            (match armDecision env task now with
             | some (false, h) => some h
             | _ => none)
          else s.runningTasks i,
        tasks := fun i =>
          if i = task.id then (s.tasks i).map (rowUpdate cronNext env task now)
          else s.tasks i } := by
  refine SchedState.ext2 (fun i => ?_) (fun i => ?_) (fun i => ?_) <;>
    dsimp only [scheduleTaskState, armDecision, writtenNext, rowUpdate, scheduleFinish,
      stopMaps, stopDb, setCronHandle, setTimerHandle] <;>
    by_cases hsf : env.stopDbFails <;>
    by_cases haf : env.armFails <;>
    simp only [hsf, haf, if_true, if_false, Bool.false_eq_true, Bool.true_or,
      Bool.false_or, Bool.or_false, Bool.or_true] <;>
    (repeat' split) <;>
    by_cases hi : i = task.id <;>
    (try simp_all [Option.map_map, Function.comp, rowUpdate_stopDbFails, Option.map_id,
      rowUpdate_def, writtenNext]) <;>
    (try exact Option_map_ext _ (fun r => rfl)) <;>
    (try rfl)

end YTask

namespace YTask

/-- At most one live handle per task id across the two dispatch maps. -/
def handlesDisjoint (s : SchedState) : Prop :=
  ∀ id, s.scheduledTasks id = none ∨ s.runningTasks id = none

/-- The operations of the scheduler that touch scheduler state. -/
inductive SchedOp
  | scheduleOp (env : FailEnv) (task : Task) (now : JsDate)
  | stopOp (taskId : String) (now : JsDate)
  | shutdownOp
  | executeOp (taskId : String) (startedAt : JsDate)

/-- State semantics of the scheduler operations (executeOp covers only the
    tasks-table writes of executeTask; its log writes live in the separate
    pipeline model). -/
def applyOp (cronNext : String → JsDate → Option JsDate) :
    SchedOp → SchedState → SchedState
  | SchedOp.scheduleOp env task now, s => (scheduleTaskState cronNext env task now s).2
  | SchedOp.stopOp taskId now, s => stopTaskState taskId now s
  | SchedOp.shutdownOp, s => shutdownState s
  | SchedOp.executeOp taskId startedAt, s => executeTaskDbState taskId startedAt s

/-- The scheduler's initial state: empty dispatch maps over an arbitrary
    tasks table. -/
def initialSched (tasks0 : String → Option TaskRow) : SchedState :=
  ⟨fun _ => none, fun _ => none, tasks0⟩

/-- States reachable from an initial state by scheduler operations. -/
inductive Reachable (cronNext : String → JsDate → Option JsDate) : SchedState → Prop
  | init (tasks0 : String → Option TaskRow) : Reachable cronNext (initialSched tasks0)
  | step {s : SchedState} (op : SchedOp) :
      Reachable cronNext s → Reachable cronNext (applyOp cronNext op s)

theorem handlesDisjoint_apply (cronNext : String → JsDate → Option JsDate)
    (op : SchedOp) (s : SchedState) (h : handlesDisjoint s) :
    handlesDisjoint (applyOp cronNext op s) := by
  cases op with
  | scheduleOp env task now =>
    intro id
    unfold applyOp
    dsimp only
    rw [scheduleTaskState_state]
    dsimp only
    by_cases hid : id = task.id
    · subst hid
      rw [if_pos rfl, if_pos rfl]
      cases harm : armDecision env task now with
      | none => exact Or.inl rfl
      | some p =>
        obtain ⟨b, hh⟩ := p
        cases b
        · exact Or.inl rfl
        · exact Or.inr rfl
    · rw [if_neg hid, if_neg hid]
      exact h id
  | stopOp taskId now =>
    intro id
    unfold applyOp stopTaskState
    dsimp only
    by_cases hid : id = taskId
    · rw [if_pos hid]
      exact Or.inl rfl
    · rw [if_neg hid, if_neg hid]
      exact h id
  | shutdownOp =>
    intro id
    exact Or.inl rfl
  | executeOp taskId startedAt =>
    intro id
    exact h id

/-- C4 (amended): at every reachable state of the dispatch table, each
    task id has at most one live armed timer/cron handle across the two
    maps; every schedule call cancels any existing handle for the id
    before arming a new one; and schedule, stop and shutdown - but not
    execute - are the operations that mutate the task-to-handle mapping
    (shutdown clears every handle at process termination). -/
theorem C4_dispatch_invariant (cronNext : String → JsDate → Option JsDate) :
    (∀ s, Reachable cronNext s → handlesDisjoint s) ∧
    (∀ taskId startedAt s,
      (applyOp cronNext (SchedOp.executeOp taskId startedAt) s).scheduledTasks =
          s.scheduledTasks ∧
        (applyOp cronNext (SchedOp.executeOp taskId startedAt) s).runningTasks =
          s.runningTasks) := by
  constructor
  · intro s hs
    induction hs with
    | init tasks0 =>
      intro id
      exact Or.inl rfl
    | step op hs ih => exact handlesDisjoint_apply cronNext op _ ih
  · intro taskId startedAt s
    exact ⟨rfl, rfl⟩

/-- The state after scheduling the concrete interval task from the empty
    initial state. -/
def armedIntervalState : SchedState :=
  (scheduleTaskState (fun _ _ => none) noFail intervalTask60k now2024
    (initialSched (fun _ => none))).2

/-- C4 counterexample: shutdown - an operation that is neither schedule
    nor stop - mutates the task-to-handle mapping: it removes the armed
    interval handle. -/
theorem C4_cex_shutdown_mutates :
    armedIntervalState.runningTasks "task-1" =
        some (TimerHandle.intervalTimer 60000) ∧
      (applyOp (fun _ _ => none) SchedOp.shutdownOp armedIntervalState).runningTasks
        "task-1" = none := by
  refine ⟨by decide, rfl⟩

/-- C4 witness: the invariant applied at a concrete reachable state. -/
theorem C4_witness_invariant :
    (applyOp (fun _ _ => none)
        (SchedOp.scheduleOp noFail intervalTask60k now2024)
        (initialSched (fun _ => none))).scheduledTasks "task-1" = none ∨
      (applyOp (fun _ _ => none)
        (SchedOp.scheduleOp noFail intervalTask60k now2024)
        (initialSched (fun _ => none))).runningTasks "task-1" = none :=
  (C4_dispatch_invariant (fun _ _ => none)).1 _
    (Reachable.step _ (Reachable.init _)) "task-1"

end YTask

namespace YTask

/-- C3 (amended): only visual (non-once) and lunar (lunarRepeat) timers
    re-arm by calling scheduleTask again after invoking the pipeline
    (self-renewing chain); an interval trigger instead arms a persistent
    setInterval handle with period interval whose callback never
    re-invokes schedule, and a cron trigger arms a persistent cron job;
    for an interval trigger evaluated at now the recorded next execution
    time is now + interval. -/
theorem C3_rearm_behaviour (cronNext : String → JsDate → Option JsDate)
    (task : Task) (now : JsDate) (s : SchedState) :
    (task.triggerType = TriggerType.interval → task.triggerConfig.interval ≠ 0 →
      (scheduleTaskState cronNext noFail task now s).2.runningTasks task.id =
          some (TimerHandle.intervalTimer task.triggerConfig.interval) ∧
        reschedulesOnFire (TimerHandle.intervalTimer task.triggerConfig.interval) = false ∧
        persistentHandle (TimerHandle.intervalTimer task.triggerConfig.interval) = true ∧
        (scheduleTaskState cronNext noFail task now s).2.tasks task.id =
          (s.tasks task.id).map (fun r =>
            { r with nextExecutionTime := some (addMs now task.triggerConfig.interval),
                     updatedAt := some now })) ∧
    (∀ expr, task.triggerType = TriggerType.cron → task.triggerConfig.cron = some expr →
      (scheduleTaskState cronNext noFail task now s).2.scheduledTasks task.id =
          some (TimerHandle.cronJob expr) ∧
        reschedulesOnFire (TimerHandle.cronJob expr) = false ∧
        persistentHandle (TimerHandle.cronJob expr) = true) ∧
    (∀ vt t, task.triggerType = TriggerType.visual →
      task.triggerConfig.visualType = some vt → vt ≠ VisualType.once →
      calculateVisualScheduleTime task now = some t → civilLt now t = true →
      (scheduleTaskState cronNext noFail task now s).2.runningTasks task.id =
          some (TimerHandle.timeoutReschedule t) ∧
        reschedulesOnFire (TimerHandle.timeoutReschedule t) = true) ∧
    (∀ t, task.triggerType = TriggerType.lunar → task.triggerConfig.lunarDay ≠ 0 →
      task.triggerConfig.lunarRepeat = true →
      calculateLunarScheduleTime task now = some t → civilLt now t = true →
      (scheduleTaskState cronNext noFail task now s).2.runningTasks task.id =
        some (TimerHandle.timeoutReschedule t)) := by
  refine ⟨?_, ?_, ?_, ?_⟩
  · intro htt hint
    rw [scheduleTaskState_state]
    dsimp only
    rw [if_pos rfl, if_pos rfl]
    refine ⟨?_, rfl, rfl, ?_⟩
    · unfold armDecision
      rw [htt]
      simp [hint, noFail]
    · refine Option_map_ext _ (fun r => ?_)
      rw [rowUpdate_def]
      unfold writtenNext
      rw [htt]
      simp [hint, noFail]
  · intro expr htt hcron
    rw [scheduleTaskState_state]
    dsimp only
    rw [if_pos rfl]
    refine ⟨?_, rfl, rfl⟩
    unfold armDecision
    rw [htt, hcron]
    simp [noFail]
  · intro vt t htt hvt hvto hcalc hlt
    rw [scheduleTaskState_state]
    dsimp only
    rw [if_pos rfl]
    refine ⟨?_, rfl⟩
    unfold armDecision
    rw [htt, hvt, hcalc]
    simp [noFail, hlt, hvto]
  · intro t htt hld hrep hcalc hlt
    rw [scheduleTaskState_state]
    dsimp only
    rw [if_pos rfl]
    unfold armDecision
    rw [htt, hcalc]
    simp [noFail, hld, hrep, hlt]

/-- C3 counterexample: an interval trigger is a recurring kind, yet the
    handle it arms is a persistent setInterval whose fire callback never
    calls schedule again - not a self-renewing one-shot chain. -/
theorem C3_cex_interval_no_rearm :
    armedIntervalState.runningTasks "task-1" =
        some (TimerHandle.intervalTimer 60000) ∧
      reschedulesOnFire (TimerHandle.intervalTimer 60000) = false ∧
      persistentHandle (TimerHandle.intervalTimer 60000) = true := by
  refine ⟨by decide, rfl, rfl⟩

/-- C3 witness: the amended theorem applied to a concrete visual week
    task, whose armed timer does re-invoke schedule on fire. -/
theorem C3_witness_visual_rearm :
    (scheduleTaskState (fun _ _ => none) noFail weekTaskWednesday
        ⟨2024, 0, 2, 36000000⟩ (initialSched (fun _ => none))).2.runningTasks
        "task-1" = some (TimerHandle.timeoutReschedule ⟨2024, 0, 3, 32400000⟩) ∧
      reschedulesOnFire (TimerHandle.timeoutReschedule ⟨2024, 0, 3, 32400000⟩) = true :=
  (C3_rearm_behaviour (fun _ _ => none) weekTaskWednesday ⟨2024, 0, 2, 36000000⟩
    (initialSched (fun _ => none))).2.2.1 VisualType.week ⟨2024, 0, 3, 32400000⟩
    rfl rfl (by decide) (by decide) (by decide)

end YTask

namespace YTask

/-- Folding repeated stopTask calls. -/
def stops (taskId : String) (l : List JsDate) (s : SchedState) : SchedState :=
  l.foldl (fun s n => stopTaskState taskId n s) s

theorem stop_stop_collapse (taskId : String) (t1 t2 : JsDate) (s : SchedState) :
    stopTaskState taskId t2 (stopTaskState taskId t1 s) = stopTaskState taskId t2 s := by
  refine SchedState.ext2 (fun i => ?_) (fun i => ?_) (fun i => ?_) <;>
    unfold stopTaskState <;> dsimp only <;> by_cases hi : i = taskId <;>
    simp only [hi, if_pos, if_neg, if_true, if_false, Option.map_map]
  · exact Option_map_ext _ (fun r => rfl)

theorem rowUpdate_after_stop (cronNext : String → JsDate → Option JsDate)
    (task : Task) (now t : JsDate) (r : TaskRow) :
    rowUpdate cronNext noFail task now
      { r with nextExecutionTime := none, updatedAt := some t } =
    rowUpdate cronNext noFail task now r := by
  rw [rowUpdate_def]
  dsimp only
  cases h : writtenNext cronNext noFail task now <;> simp [noFail]

theorem schedule_after_stop (cronNext : String → JsDate → Option JsDate)
    (task : Task) (ts t : JsDate) (s : SchedState) :
    scheduleTaskState cronNext noFail task ts (stopTaskState task.id t s) =
      scheduleTaskState cronNext noFail task ts s := by
  have h1 := scheduleTaskState_returns cronNext noFail task ts (stopTaskState task.id t s)
  have h2 := scheduleTaskState_returns cronNext noFail task ts s
  refine Prod.ext ?_ ?_
  · rw [h1, h2]
  · rw [scheduleTaskState_state, scheduleTaskState_state]
    refine SchedState.ext2 (fun i => ?_) (fun i => ?_) (fun i => ?_) <;> dsimp only <;>
      by_cases hi : i = task.id
    · rw [if_pos hi, if_pos hi]
    · rw [if_neg hi, if_neg hi]
      unfold stopTaskState
      dsimp only
      rw [if_neg hi]
    · rw [if_pos hi, if_pos hi]
    · rw [if_neg hi, if_neg hi]
      unfold stopTaskState
      dsimp only
      rw [if_neg hi]
    · rw [if_pos hi, if_pos hi]
      unfold stopTaskState
      dsimp only
      rw [if_pos hi, Option.map_map]
      exact Option_map_ext _ (fun r => rowUpdate_after_stop cronNext task ts t r)
    · rw [if_neg hi, if_neg hi]
      unfold stopTaskState
      dsimp only
      rw [if_neg hi]

theorem schedule_after_stops (cronNext : String → JsDate → Option JsDate)
    (task : Task) (ts : JsDate) (l : List JsDate) (s : SchedState) :
    scheduleTaskState cronNext noFail task ts (stops task.id l s) =
      scheduleTaskState cronNext noFail task ts s := by
  induction l generalizing s with
  | nil => rfl
  | cons t l ih =>
    show scheduleTaskState cronNext noFail task ts
        (stops task.id l (stopTaskState task.id t s)) = _
    rw [ih (stopTaskState task.id t s), schedule_after_stop]

/-- C7 (amended): extra stop calls are invisible to a following schedule:
    after a single prior stop, any further number of stops followed by one
    schedule yields exactly the return value and state of one stop
    followed by that schedule (schedule internally re-stops the task,
    clearing next_execution_time and refreshing updated_at at its own call
    time, so earlier stop timestamps leave no trace), and stop composed
    with stop equals the later stop alone; stop is idempotent on the timer
    maps; but stop is not a strict no-op on the stored Task record when
    nothing is scheduled - it still clears next_execution_time and
    refreshes updated_at. -/
theorem C7_stop_schedule_idempotent (cronNext : String → JsDate → Option JsDate)
    (task : Task) (t1 ts : JsDate) (l : List JsDate) (s : SchedState) :
    scheduleTaskState cronNext noFail task ts
        (stops task.id l (stopTaskState task.id t1 s)) =
      scheduleTaskState cronNext noFail task ts (stopTaskState task.id t1 s) ∧
    (∀ t2, stopTaskState task.id t2 (stopTaskState task.id t1 s) =
      stopTaskState task.id t2 s) :=
  ⟨schedule_after_stops cronNext task ts l (stopTaskState task.id t1 s),
   fun t2 => stop_stop_collapse task.id t1 t2 s⟩

/-- A stored row whose updated_at is 2024-01-01T10:00. -/
def rowT0 : TaskRow := ⟨none, none, some now2024⟩

/-- C7 counterexample: with no timer armed for the task, a single stop
    call still rewrites the stored Task record - it refreshes updated_at -
    so stop is not a no-op on the stored record when nothing is scheduled. -/
theorem C7_cex_stop_writes_row :
    (initialSched (fun i => if i = "task-1" then some rowT0 else none)).runningTasks
        "task-1" = none ∧
      (initialSched (fun i => if i = "task-1" then some rowT0 else none)).scheduledTasks
        "task-1" = none ∧
      (stopTaskState "task-1" ⟨2024, 0, 2, 0⟩
          (initialSched (fun i => if i = "task-1" then some rowT0 else none))).tasks
          "task-1" ≠
        (initialSched (fun i => if i = "task-1" then some rowT0 else none)).tasks
          "task-1" := by
  refine ⟨rfl, rfl, by decide⟩

end YTask

namespace YTask

/-- Whether the trigger kind's configuration guard in scheduleTask fails
    (the truthiness tests on the kind's config fields): a recognized kind
    whose required config field is absent or zero. -/
def configMissing (task : Task) : Bool :=
  match task.triggerType with
  | TriggerType.cron => task.triggerConfig.cron.isNone
  | TriggerType.interval => task.triggerConfig.interval == 0
  | TriggerType.date => task.triggerConfig.date.isNone
  | TriggerType.visual => task.triggerConfig.visualType.isNone
  | TriggerType.lunar => task.triggerConfig.lunarDay == 0
  | TriggerType.countdown => task.triggerConfig.countdownStartTime.isNone
  | TriggerType.conditional => false

theorem configMissing_no_action (cronNext : String → JsDate → Option JsDate)
    (env : FailEnv) (task : Task) (now : JsDate)
    (h : configMissing task = true) :
    armWanted task now = false ∧ armDecision env task now = none ∧
      writtenNext cronNext env task now = none := by
  revert h
  unfold configMissing armWanted armDecision writtenNext
  cases task.triggerType <;> intro h <;>
    simp_all [Option.isNone_iff_eq_none, beq_iff_eq, ite_self]

end YTask

namespace YTask

/-- C8 (amended): scheduleTask is total over the failure environment:
    every call returns a boolean (the embedding itself is a total
    function, standing for the catch-all try/catch) and with no injected
    failure it returns true; a failure at the internal stop's db write
    returns false with no live handle armed; a failure at the arming call
    leaves no live handle armed; a recognized trigger kind with its config
    field missing arms nothing and still returns true (no action, no
    exception) whenever the stop db write succeeds.  However a failure at
    the final next_execution_time update returns false while leaving the
    freshly armed timer live - failure does not imply the task is left
    without a live timer (see counterexample). -/
theorem C8_schedule_error_handling (cronNext : String → JsDate → Option JsDate)
    (env : FailEnv) (task : Task) (now : JsDate) (s : SchedState) :
    (scheduleTaskState cronNext noFail task now s).1 = true ∧
    (env.stopDbFails = true →
      (scheduleTaskState cronNext env task now s).1 = false ∧
        (scheduleTaskState cronNext env task now s).2.scheduledTasks task.id = none ∧
        (scheduleTaskState cronNext env task now s).2.runningTasks task.id = none) ∧
    (env.armFails = true →
      (scheduleTaskState cronNext env task now s).2.scheduledTasks task.id = none ∧
        (scheduleTaskState cronNext env task now s).2.runningTasks task.id = none) ∧
    (configMissing task = true → env.stopDbFails = false →
      (scheduleTaskState cronNext env task now s).1 = true ∧
        (scheduleTaskState cronNext env task now s).2.scheduledTasks task.id = none ∧
        (scheduleTaskState cronNext env task now s).2.runningTasks task.id = none) := by
  refine ⟨?_, fun hsf => ?_, fun haf => ?_, fun hcm hsf => ?_⟩
  · rw [scheduleTaskState_returns]
    unfold schedOk noFail
    simp
  · refine ⟨?_, ?_, ?_⟩
    · rw [scheduleTaskState_returns]
      unfold schedOk
      rw [if_pos hsf]
    · rw [scheduleTaskState_state]
      dsimp only
      rw [if_pos rfl]
      unfold armDecision
      rw [hsf]
      simp
    · rw [scheduleTaskState_state]
      dsimp only
      rw [if_pos rfl]
      unfold armDecision
      rw [hsf]
      simp
  · refine ⟨?_, ?_⟩
    · rw [scheduleTaskState_state]
      dsimp only
      rw [if_pos rfl]
      unfold armDecision
      rw [haf]
      simp
    · rw [scheduleTaskState_state]
      dsimp only
      rw [if_pos rfl]
      unfold armDecision
      rw [haf]
      simp
  · obtain ⟨hw, hd, hn⟩ := configMissing_no_action cronNext env task now hcm
    refine ⟨?_, ?_, ?_⟩
    · rw [scheduleTaskState_returns]
      unfold schedOk
      rw [if_neg (by simp [hsf]), hw, hn]
      simp
    · rw [scheduleTaskState_state]
      dsimp only
      rw [if_pos rfl, hd]
    · rw [scheduleTaskState_state]
      dsimp only
      rw [if_pos rfl, hd]

/-- C8 counterexample: a failure at the final next_execution_time db
    update makes scheduleTask return false while leaving a live interval
    timer armed for the task - a false return does not leave the task
    without a live timer. -/
theorem C8_cex_fail_with_live_timer :
    (scheduleTaskState (fun _ _ => none) ⟨false, false, true⟩ intervalTask60k now2024
        (initialSched (fun _ => none))).1 = false ∧
      (scheduleTaskState (fun _ _ => none) ⟨false, false, true⟩ intervalTask60k now2024
          (initialSched (fun _ => none))).2.runningTasks "task-1" =
        some (TimerHandle.intervalTimer 60000) :=
  ⟨rfl, rfl⟩

/-- Witness for C8 at a concrete input: with a stop-db failure injected,
    the interval task's schedule call returns false and arms nothing. -/
theorem C8_witness_stopfail :
    (scheduleTaskState (fun _ _ => none) ⟨true, false, false⟩ intervalTask60k now2024
        (initialSched (fun _ => none))).1 = false ∧
      (scheduleTaskState (fun _ _ => none) ⟨true, false, false⟩ intervalTask60k now2024
          (initialSched (fun _ => none))).2.runningTasks "task-1" = none :=
  ⟨((C8_schedule_error_handling (fun _ _ => none) ⟨true, false, false⟩ intervalTask60k
      now2024 (initialSched (fun _ => none))).2.1 rfl).1,
   ((C8_schedule_error_handling (fun _ _ => none) ⟨true, false, false⟩ intervalTask60k
      now2024 (initialSched (fun _ => none))).2.1 rfl).2.2⟩

end YTask

namespace YTask

/-- The retry machinery's view of the execution_logs table for one
    permanently failing task: the retry_count each inserted row has after
    its attempt is fully handled, in insertion order, plus whether a retry
    timer is armed (a further executeTask call is scheduled). -/
structure RetryState where
  rows : List Nat
  pending : Bool
deriving Repr, DecidableEq

/-- Embeds one failing executeTask call (lines 506-553) followed by its
    handleRetry (lines 624-649): the call inserts a fresh execution_logs
    row under a fresh uuid with retry_count 0; the execution fails;
    handleRetry then SELECTs that same fresh row (it queries by the
    executionId just created, not the row of the attempt being retried),
    sees retryCount = 0, and when 0 < maxRetries bumps that row to 1 and
    arms setTimeout(() to executeTask(task), retryInterval); otherwise it
    leaves the row at 0 and arms nothing. -/
def executeFailingAttempt (maxRetries : Nat) (st : RetryState) : RetryState :=
  if 0 < maxRetries then ⟨st.rows ++ [1], true⟩ else ⟨st.rows ++ [0], false⟩

/-- One tick of the failing-task loop: if a retry (or the initial call) is
    pending, run the failing attempt; otherwise nothing happens. -/
def stepFailing (maxRetries : Nat) (st : RetryState) : RetryState :=
  if st.pending then executeFailingAttempt maxRetries st else st

/-- n ticks of the failing-task loop from the initial state (no rows, the
    first executeTask call due). -/
def runFailing (maxRetries : Nat) : Nat → RetryState
  | 0 => ⟨[], true⟩
  | n + 1 => stepFailing maxRetries (runFailing maxRetries n)

/-- C1 (code bug): every failing executeTask call inserts a fresh log row
    with retry_count 0 under a fresh id and handleRetry reads that fresh
    row, so with maxRetries = 1 each attempt sees retryCount 0 < 1, bumps
    the fresh row to 1 and arms yet another retry: after n ticks there are
    n rows, all ending at retry_count 1, and a retry is still pending -
    the run never produces exactly maxRetries + 1 rows and never stops,
    and no row's count ever climbs past 1.  Only maxRetries = 0
    terminates, with a single row left at retry_count 0. -/
theorem C1_retry_never_stops :
    (∀ n, (runFailing 1 n).rows = List.replicate n 1 ∧
      (runFailing 1 n).pending = true) ∧
    (runFailing 0 5).rows = [0] ∧ (runFailing 0 5).pending = false := by
  refine ⟨fun n => ?_, by decide, by decide⟩
  induction n with
  | zero => exact ⟨rfl, rfl⟩
  | succ n ih =>
    obtain ⟨h1, h2⟩ := ih
    show (stepFailing 1 (runFailing 1 n)).rows = _ ∧
      (stepFailing 1 (runFailing 1 n)).pending = true
    unfold stepFailing executeFailingAttempt
    rw [h2, if_pos rfl, if_pos Nat.zero_lt_one]
    refine ⟨?_, rfl⟩
    dsimp only
    rw [h1, List.replicate_succ']

end YTask

namespace YTask

/-- The response object the fetch call resolves to. -/
structure HttpResponse where
  ok : Bool
  status : Nat
  statusText : String
  body : String
deriving Repr, DecidableEq

/-- A sandboxExecutor.executeCommand/executeScript result. -/
structure SandboxResult where
  success : Bool
  stdout : String
  stderr : String
  code : Int
  duration : Nat
deriving Repr, DecidableEq

/-- The external world executeTaskLogic talks to: fetch, and the sandbox
    executor's command and script runners (url / command resp. script,
    language, then the task id and timeout); each may itself reject,
    rendered as Except.error. -/
structure ExecEnv where
  fetch : String → Except String HttpResponse
  runCommand : String → String → Nat → Except String SandboxResult
  runScript : String → String → String → Nat → Except String SandboxResult

/-- The value a successful executeTaskLogic call returns. -/
inductive ExecResult
  | httpJson (body : String)
  | commandOutput (stdout stderr : String) (code : Int) (duration : Nat)
  | scriptOutput (stdout stderr : String) (code : Int) (duration : Nat)
      (language : String)
deriving Repr, DecidableEq

/-- The persistent state executeTaskLogic could touch: the scheduler state
    (tasks table and dispatch maps) and the number of execution_logs
    rows. -/
structure ExecWorld where
  sched : SchedState
  logRows : Nat

/-- The JS idiom (s or-else d) on a string: empty is falsy. -/
def orDefault (s d : String) : String := if s = "" then d else s

/-- Embeds TaskScheduler.executeTaskLogic (lines 555-622), threading the
    persistent world through: http fetches the configured url and returns
    the response body when response.ok, else throws an HTTP-status error
    (a missing url makes the fetch call itself reject); command requires a
    non-empty command string, runs it in the sandbox with the task's
    timeout, throws with the result's stderr when not successful;
    script is analogous with language defaulting to javascript; any
    other task type throws unsupported.  No branch writes a log row,
    touches the tasks table or the dispatch maps. -/
def executeTaskLogicWorld (env : ExecEnv) (task : Task) (w : ExecWorld) :
    Except String ExecResult × ExecWorld :=
  match task.type with
  | TaskKind.http =>
    match task.config.url with
    | some url =>
      match env.fetch url with
      | Except.error e => (Except.error e, w)
      | Except.ok resp =>
        if resp.ok then (Except.ok (ExecResult.httpJson resp.body), w)
        else
          (Except.error ("HTTP " ++ toString resp.status ++ ": " ++ resp.statusText), w)
    | none => (Except.error "failed to parse URL", w)
  | TaskKind.command =>
    match task.config.command with
    | some cmd =>
      if cmd = "" then (Except.error "invalid command config", w)
      else
        match env.runCommand cmd task.id task.timeout with
        | Except.error e => (Except.error e, w)
        | Except.ok r =>
          if r.success then
            (Except.ok (ExecResult.commandOutput r.stdout r.stderr r.code r.duration), w)
          else (Except.error ("command failed: " ++ orDefault r.stderr "unknown error"), w)
    | none => (Except.error "invalid command config", w)
  | TaskKind.script =>
    match task.config.script with
    | some sc =>
      if sc = "" then (Except.error "invalid script config", w)
      else
        match env.runScript sc (task.config.language.getD "javascript") task.id
            task.timeout with
        | Except.error e => (Except.error e, w)
        | Except.ok r =>
          if r.success then
            (Except.ok (ExecResult.scriptOutput r.stdout r.stderr r.code r.duration
              (task.config.language.getD "javascript")), w)
          else (Except.error ("script failed: " ++ orDefault r.stderr "unknown error"), w)
    | none => (Except.error "invalid script config", w)
  | TaskKind.unknown => (Except.error "unsupported task type", w)

/-- Embeds the preview route handler (routes/tasks.ts lines 433-440): run
    executeTaskLogic on the assembled preview task and report success or
    failure; the handler performs no database write of its own, in either
    outcome. -/
def previewExecute (env : ExecEnv) (task : Task) (w : ExecWorld) :
    Bool × ExecWorld :=
  match executeTaskLogicWorld env task w with
  | (Except.ok _, w2) => (true, w2)
  | (Except.error _, w2) => (false, w2)

/-- C10: executeTaskLogic - the path preview executions use - has no side
    effect on the persistent world: it leaves the log-row count, the tasks
    table and the dispatch maps exactly as found (so the preview route
    does too), its outcome is independent of the task's maxRetries and
    retryInterval (failure propagates to the caller as an error without
    consulting the retry policy - retry lives only in executeTask), and an
    unsupported task type yields an error, not a write. -/
theorem C10_executeTaskLogic_no_side_effects (env : ExecEnv) (task : Task)
    (w : ExecWorld) :
    (executeTaskLogicWorld env task w).2 = w ∧
    (previewExecute env task w).2 = w ∧
    (∀ mr ri,
      (executeTaskLogicWorld env
          { task with maxRetries := mr, retryInterval := ri } w).1 =
        (executeTaskLogicWorld env task w).1) ∧
    (task.type = TaskKind.unknown →
      (executeTaskLogicWorld env task w).1 = Except.error "unsupported task type") := by
  have hframe : (executeTaskLogicWorld env task w).2 = w := by
    unfold executeTaskLogicWorld
    repeat' split
    all_goals rfl
  have hp : (previewExecute env task w).2 = (executeTaskLogicWorld env task w).2 := by
    unfold previewExecute
    split <;> rename_i heq <;> rw [heq]
  refine ⟨hframe, by rw [hp, hframe], fun mr ri => ?_, fun hu => ?_⟩
  · obtain ⟨i, nm, ty, cfg, tt, tc, mr0, ri0, tmo⟩ := task
    cases ty <;> rfl
  · unfold executeTaskLogicWorld
    rw [hu]

/-- An external world whose every call rejects. -/
def failingEnv : ExecEnv :=
  ⟨fun _ => Except.error "down", fun _ _ _ => Except.error "down",
   fun _ _ _ _ => Except.error "down"⟩

/-- An empty persistent world. -/
def emptyWorld : ExecWorld := ⟨initialSched (fun _ => none), 0⟩

/-- A task of unrecognized type. -/
def unknownTask : Task :=
  ⟨"task-u", "task-u", TaskKind.unknown, ⟨none, none, none, none⟩,
   TriggerType.interval, emptyTriggerConfig, 3, 5000, 30000⟩

/-- Witness for C10 at a concrete input: an unrecognized task type makes
    executeTaskLogic yield the unsupported-type error. -/
theorem C10_witness_unknown :
    (executeTaskLogicWorld failingEnv unknownTask emptyWorld).1 =
      Except.error "unsupported task type" :=
  (C10_executeTaskLogic_no_side_effects failingEnv unknownTask emptyWorld).2.2.2 rfl

end YTask
